import Mathlib

/-! Previous-word context resolution (`prev_words_info.h`).

A shallow embedding of the class `latinime::PrevWordsInfo` and of the collaborators it calls.

* C++ `int` values are `Int`; a nullable pointer is an `Option`.
* A `const int *` word view is the read-only memory it points at, `Nat → Int` (the code point at
  each offset).
* The dictionary is a record of deterministic lookup functions.  Every call made on it, and every
  `memmove` into the scratch buffer, is recorded in the run's event list.
* Undefined behaviour (a null dereference, a copy that does not fit the scratch buffer) ends the
  run without a value.
-/

namespace latinime

/-- Constants of `defines.h`, which the header includes but which is not part of the sources at
hand: they are parameters of the development.  Both array sizes are positive, as C++ requires of
the arrays declared with them. -/
structure Defines where
  MAX_WORD_LENGTH : Nat
  MAX_PREV_WORD_COUNT_FOR_N_GRAM : Nat
  NOT_A_DICT_POS : Int
  max_word_length_pos : 0 < MAX_WORD_LENGTH
  max_prev_word_count_pos : 0 < MAX_PREV_WORD_COUNT_FOR_N_GRAM

/-- Handle of the bigram-list storage policy, `DictionaryBigramsStructurePolicy`; only its identity
is used here. -/
structure DictionaryBigramsStructurePolicy where
  handle : Nat
  deriving DecidableEq, Repr

/-- The interface `DictionaryStructureWithBufferPolicy`, restricted to the three methods the class
calls.  `getTerminalPtNodePositionOfWord codePoints codePointCount forceLowerCaseSearch` receives
the initialised part of the scratch buffer and the count. -/
structure DictionaryStructureWithBufferPolicy where
  getTerminalPtNodePositionOfWord : List Int → Int → Bool → Int
  getBigramsPositionOfPtNode : Int → Int
  getBigramsStructurePolicy : DictionaryBigramsStructurePolicy

/-- The static helper `CharUtils::attachBeginningOfSentenceMarker(codePoints, codePointCount,
maxCodePoint)` of `utils/char_utils.h`, as a parameter: from the buffer contents and the count it
gives the new buffer contents and the returned count. -/
structure CharUtils where
  attachBeginningOfSentenceMarker : List Int → Int → Int → List Int × Int

/-- What a run does that can be observed from outside the class. -/
inductive Event where
  /-- A `memmove` of `codePointCount` code points into the scratch buffer. -/
  | memmove (codePointCount : Int)
  /-- A call of `getTerminalPtNodePositionOfWord`. -/
  | terminalLookup (codePoints : List Int) (codePointCount : Int) (forceLowerCaseSearch : Bool)
  /-- A call of `getBigramsPositionOfPtNode`. -/
  | bigramsLookup (ptNodePos : Int)
  deriving DecidableEq, Repr

/-- A run of a piece of code: the events it produced, and its value; `value = none` means the run
hit undefined behaviour and produced nothing. -/
structure Run (α : Type) where
  events : List Event
  value : Option α

/-- A run that does nothing and yields `a`. -/
def Run.pure {α : Type} (a : α) : Run α := ⟨[], some a⟩

/-- A run that stops in undefined behaviour. -/
def Run.fault {α : Type} : Run α := ⟨[], none⟩

/-- Sequencing: the second part runs only if the first produced a value. -/
def Run.bind {α β : Type} (r : Run α) (f : α → Run β) : Run β :=
  match r.value with
  | none => ⟨r.events, none⟩
  | some a => ⟨r.events ++ (f a).events, (f a).value⟩

/-- The terminal-node lookups among the events, in order: code points, count, force-lowercase. -/
def terminalLookups : List Event → List (List Int × Int × Bool)
  | [] => []
  | Event.terminalLookup cps n force :: es => (cps, n, force) :: terminalLookups es
  | _ :: es => terminalLookups es

/-- The `memmove` sizes (in code points) among the events, in order. -/
def memmoveCounts : List Event → List Int
  | [] => []
  | Event.memmove n :: es => n :: memmoveCounts es
  | _ :: es => memmoveCounts es

/-- The first `n` code points readable at a word view. -/
def readCodePoints (src : Nat → Int) : Nat → List Int
  | 0 => []
  | n + 1 => readCodePoints src n ++ [src n]

/-- The statement `memmove(codePoints, wordCodePoints, sizeof(int) * codePointCount)` with
`int codePoints[MAX_WORD_LENGTH]`: it fills the scratch buffer with the first `codePointCount` code
points of the view.  A negative count (whose byte size wraps around as a `size_t`) or a count above
the capacity writes past the end of the scratch buffer: undefined behaviour. -/
def memmove (capacity : Nat) (wordCodePoints : Nat → Int) (codePointCount : Int) :
    Run (List Int) :=
  if 0 ≤ codePointCount ∧ codePointCount ≤ capacity then
    ⟨[Event.memmove codePointCount], some (readCodePoints wordCodePoints codePointCount.toNat)⟩
  else
    ⟨[Event.memmove codePointCount], none⟩

/-- The call `dictStructurePolicy->getTerminalPtNodePositionOfWord(...)`. -/
def callGetTerminalPtNodePositionOfWord (policy : DictionaryStructureWithBufferPolicy)
    (codePoints : List Int) (codePointCount : Int) (forceLowerCaseSearch : Bool) : Run Int :=
  ⟨[Event.terminalLookup codePoints codePointCount forceLowerCaseSearch],
    some (policy.getTerminalPtNodePositionOfWord codePoints codePointCount forceLowerCaseSearch)⟩

/-- The call `dictStructurePolicy->getBigramsPositionOfPtNode(...)`. -/
def callGetBigramsPositionOfPtNode (policy : DictionaryStructureWithBufferPolicy)
    (ptNodePos : Int) : Run Int :=
  ⟨[Event.bigramsLookup ptNodePos], some (policy.getBigramsPositionOfPtNode ptNodePos)⟩

/-- Lines 101-107 and 131-137: the marker is attached when the word begins a sentence.  The result
is the scratch buffer and the count afterwards. -/
def attachIfBeginningOfSentence (d : Defines) (charUtils : CharUtils) (codePoints : List Int)
    (codePointCount : Int) (isBeginningOfSentence : Bool) : List Int × Int :=
  if isBeginningOfSentence then
    charUtils.attachBeginningOfSentenceMarker codePoints codePointCount d.MAX_WORD_LENGTH
  else
    (codePoints, codePointCount)

/-- The static member `getTerminalPtNodePosOfWord` (lines 91-119). -/
def getTerminalPtNodePosOfWord (d : Defines) (charUtils : CharUtils)
    (dictStructurePolicy : Option DictionaryStructureWithBufferPolicy)
    (wordCodePoints : Option (Nat → Int)) (wordCodePointCount : Int)
    (isBeginningOfSentence tryLowerCaseSearch : Bool) : Run Int :=
  match dictStructurePolicy, wordCodePoints with
  | none, _ => Run.pure d.NOT_A_DICT_POS
  | some _, none => Run.pure d.NOT_A_DICT_POS
  | some policy, some word =>
    if wordCodePointCount > d.MAX_WORD_LENGTH then Run.pure d.NOT_A_DICT_POS
    else
      (memmove d.MAX_WORD_LENGTH word wordCodePointCount).bind fun copied =>
        let marked := attachIfBeginningOfSentence d charUtils copied wordCodePointCount
          isBeginningOfSentence
        if isBeginningOfSentence && decide (marked.2 ≤ 0) then Run.pure d.NOT_A_DICT_POS
        else
          (callGetTerminalPtNodePositionOfWord policy marked.1 marked.2 false).bind
            fun wordPtNodePos =>
              if wordPtNodePos ≠ d.NOT_A_DICT_POS ∨ tryLowerCaseSearch = false then
                Run.pure wordPtNodePos
              else
                callGetTerminalPtNodePositionOfWord policy marked.1 marked.2 true

/-- The static member `getBigramListPositionForWord` (lines 150-159); the caller has checked the
dictionary handle, and the scratch buffer it passes is never null. -/
def getBigramListPositionForWord (d : Defines) (policy : DictionaryStructureWithBufferPolicy)
    (wordCodePoints : List Int) (wordCodePointCount : Int) (forceLowerCaseSearch : Bool) :
    Run Int :=
  if wordCodePointCount ≤ 0 then Run.pure d.NOT_A_DICT_POS
  else
    (callGetTerminalPtNodePositionOfWord policy wordCodePoints wordCodePointCount
      forceLowerCaseSearch).bind fun terminalPtNodePos =>
        if d.NOT_A_DICT_POS = terminalPtNodePos then Run.pure d.NOT_A_DICT_POS
        else callGetBigramsPositionOfPtNode policy terminalPtNodePos

/-- The static member `getBigramListPositionForWordWithTryingLowerCaseSearch` (lines 121-148). -/
def getBigramListPositionForWordWithTryingLowerCaseSearch (d : Defines) (charUtils : CharUtils)
    (dictStructurePolicy : Option DictionaryStructureWithBufferPolicy)
    (wordCodePoints : Option (Nat → Int)) (wordCodePointCount : Int)
    (isBeginningOfSentence : Bool) : Run Int :=
  match dictStructurePolicy, wordCodePoints with
  | none, _ => Run.pure d.NOT_A_DICT_POS
  | some _, none => Run.pure d.NOT_A_DICT_POS
  | some policy, some word =>
    if wordCodePointCount > d.MAX_WORD_LENGTH then Run.pure d.NOT_A_DICT_POS
    else
      (memmove d.MAX_WORD_LENGTH word wordCodePointCount).bind fun copied =>
        let marked := attachIfBeginningOfSentence d charUtils copied wordCodePointCount
          isBeginningOfSentence
        if isBeginningOfSentence && decide (marked.2 ≤ 0) then Run.pure d.NOT_A_DICT_POS
        else
          (getBigramListPositionForWord d policy marked.1 marked.2 false).bind fun pos =>
            if d.NOT_A_DICT_POS = pos then
              getBigramListPositionForWord d policy marked.1 marked.2 true
            else
              Run.pure pos

/-- The data members of `PrevWordsInfo` (lines 169-171): three arrays of
`MAX_PREV_WORD_COUNT_FOR_N_GRAM` entries. -/
structure PrevWordsInfo (d : Defines) where
  mPrevWordCodePoints : Fin d.MAX_PREV_WORD_COUNT_FOR_N_GRAM → Option (Nat → Int)
  mPrevWordCodePointCount : Fin d.MAX_PREV_WORD_COUNT_FOR_N_GRAM → Int
  mIsBeginningOfSentence : Fin d.MAX_PREV_WORD_COUNT_FOR_N_GRAM → Bool

/-- Index 0 of the arrays. -/
def Defines.first (d : Defines) : Fin d.MAX_PREV_WORD_COUNT_FOR_N_GRAM :=
  ⟨0, d.max_prev_word_count_pos⟩

/-- The member `clear()` (lines 161-167): every entry of the three arrays is reset. -/
def PrevWordsInfo.clear (d : Defines) : PrevWordsInfo d :=
  { mPrevWordCodePoints := fun _ => none
    mPrevWordCodePointCount := fun _ => 0
    mIsBeginningOfSentence := fun _ => false }

/-- The loop of `clear()` as written (lines 162-166), over the remaining indices and starting from
whatever the members hold. -/
def PrevWordsInfo.clearFrom {d : Defines} (self : PrevWordsInfo d) :
    List (Fin d.MAX_PREV_WORD_COUNT_FOR_N_GRAM) → PrevWordsInfo d
  | [] => self
  | i :: rest =>
    PrevWordsInfo.clearFrom
      { mPrevWordCodePoints := Function.update self.mPrevWordCodePoints i none
        mPrevWordCodePointCount := Function.update self.mPrevWordCodePointCount i 0
        mIsBeginningOfSentence := Function.update self.mIsBeginningOfSentence i false } rest

/-- The constructor `PrevWordsInfo()` (lines 32-34). -/
def PrevWordsInfo.new (d : Defines) : PrevWordsInfo d :=
  PrevWordsInfo.clear d

/-- The constructor `PrevWordsInfo(prevWordCodePoints, prevWordCodePointCount,
isBeginningOfSentence)` (lines 36-42). -/
def PrevWordsInfo.ofPrevWord (d : Defines) (prevWordCodePoints : Option (Nat → Int))
    (prevWordCodePointCount : Int) (isBeginningOfSentence : Bool) : PrevWordsInfo d :=
  let cleared := PrevWordsInfo.clear d
  { mPrevWordCodePoints := Function.update cleared.mPrevWordCodePoints d.first prevWordCodePoints
    mPrevWordCodePointCount :=
      Function.update cleared.mPrevWordCodePointCount d.first prevWordCodePointCount
    mIsBeginningOfSentence :=
      Function.update cleared.mIsBeginningOfSentence d.first isBeginningOfSentence }

/-- The contexts a program can hold: the class has two constructors and no mutator. -/
inductive PrevWordsInfo.Constructed (d : Defines) : PrevWordsInfo d → Prop where
  | new : PrevWordsInfo.Constructed d (PrevWordsInfo.new d)
  | ofPrevWord (prevWordCodePoints : Option (Nat → Int)) (prevWordCodePointCount : Int)
      (isBeginningOfSentence : Bool) :
      PrevWordsInfo.Constructed d
        (PrevWordsInfo.ofPrevWord d prevWordCodePoints prevWordCodePointCount
          isBeginningOfSentence)

/-- The loop of `isValid()` over the remaining indices. -/
def PrevWordsInfo.isValidFrom {d : Defines} (self : PrevWordsInfo d) :
    List (Fin d.MAX_PREV_WORD_COUNT_FOR_N_GRAM) → Bool
  | [] => true
  | i :: rest =>
    if self.mPrevWordCodePointCount i > d.MAX_WORD_LENGTH then false
    else self.isValidFrom rest

/-- The member `isValid()` (lines 44-51). -/
def PrevWordsInfo.isValid {d : Defines} (self : PrevWordsInfo d) : Bool :=
  self.isValidFrom (List.finRange d.MAX_PREV_WORD_COUNT_FOR_N_GRAM)

/-- The loop of `getPrevWordsTerminalPtNodePos` over the remaining indices; the value is what it
writes to the output array, in index order. -/
def PrevWordsInfo.getPrevWordsTerminalPtNodePosFrom {d : Defines} (self : PrevWordsInfo d)
    (charUtils : CharUtils) (dictStructurePolicy : Option DictionaryStructureWithBufferPolicy)
    (tryLowerCaseSearch : Bool) : List (Fin d.MAX_PREV_WORD_COUNT_FOR_N_GRAM) → Run (List Int)
  | [] => Run.pure []
  | i :: rest =>
    (getTerminalPtNodePosOfWord d charUtils dictStructurePolicy (self.mPrevWordCodePoints i)
      (self.mPrevWordCodePointCount i) (self.mIsBeginningOfSentence i) tryLowerCaseSearch).bind
      fun pos =>
        (self.getPrevWordsTerminalPtNodePosFrom charUtils dictStructurePolicy tryLowerCaseSearch
          rest).bind fun written => Run.pure (pos :: written)

/-- The member `getPrevWordsTerminalPtNodePos` (lines 53-61): the value is the content of
`outPrevWordsTerminalPtNodePos[0 .. MAX_PREV_WORD_COUNT_FOR_N_GRAM - 1]` afterwards. -/
def PrevWordsInfo.getPrevWordsTerminalPtNodePos {d : Defines} (self : PrevWordsInfo d)
    (charUtils : CharUtils) (dictStructurePolicy : Option DictionaryStructureWithBufferPolicy)
    (tryLowerCaseSearch : Bool) : Run (List Int) :=
  self.getPrevWordsTerminalPtNodePosFrom charUtils dictStructurePolicy tryLowerCaseSearch
    (List.finRange d.MAX_PREV_WORD_COUNT_FOR_N_GRAM)

/-- The class `BinaryDictionaryBigramsIterator`, as far as its constructor binds it: the bigram
storage policy and the position of the bigram list. -/
structure BinaryDictionaryBigramsIterator where
  mBigramsStructurePolicy : DictionaryBigramsStructurePolicy
  mPos : Int
  deriving DecidableEq, Repr

/-- The member `getBigramsIteratorForPrediction` (lines 63-70).  The handle is dereferenced to get
the bigram storage policy, whatever the position found: with a null handle that is undefined
behaviour. -/
def PrevWordsInfo.getBigramsIteratorForPrediction {d : Defines} (self : PrevWordsInfo d)
    (charUtils : CharUtils) (dictStructurePolicy : Option DictionaryStructureWithBufferPolicy) :
    Run BinaryDictionaryBigramsIterator :=
  (getBigramListPositionForWordWithTryingLowerCaseSearch d charUtils dictStructurePolicy
    (self.mPrevWordCodePoints d.first) (self.mPrevWordCodePointCount d.first)
    (self.mIsBeginningOfSentence d.first)).bind fun bigramListPos =>
      match dictStructurePolicy with
      | none => Run.fault
      | some policy => Run.pure ⟨policy.getBigramsStructurePolicy, bigramListPos⟩

/-- The member `getNthPrevWordCodePoints` (lines 73-78); `n` is 1-indexed. -/
def PrevWordsInfo.getNthPrevWordCodePoints {d : Defines} (self : PrevWordsInfo d) (n : Int) :
    Option (Nat → Int) :=
  if h : n ≤ 0 ∨ n > d.MAX_PREV_WORD_COUNT_FOR_N_GRAM then none
  else self.mPrevWordCodePoints ⟨(n - 1).toNat, by omega⟩

/-- The member `getNthPrevWordCodePointCount` (lines 81-86); `n` is 1-indexed. -/
def PrevWordsInfo.getNthPrevWordCodePointCount {d : Defines} (self : PrevWordsInfo d) (n : Int) :
    Int :=
  if h : n ≤ 0 ∨ n > d.MAX_PREV_WORD_COUNT_FOR_N_GRAM then 0
  else self.mPrevWordCodePointCount ⟨(n - 1).toNat, by omega⟩

/-- Modelled from the spec: the marker injector `CharUtils::attachBeginningOfSentenceMarker`, whose
source (`utils/char_utils.h`) is missing.  The spec: it "mutates buffer in place by prepending a
reserved marker code point; failure signaled by a non-positive result", and it fails when the
result "would exceed capacity".  `marker` is the reserved code point. -/
def attachBeginningOfSentenceMarker (marker : Int) (codePoints : List Int) (codePointCount : Int)
    (maxCodePoint : Int) : List Int × Int :=
  if codePointCount + 1 > maxCodePoint then (codePoints, 0)
  else (marker :: codePoints, codePointCount + 1)

/-- Modelled from the spec: the helper class `CharUtils` with the marker injector above. -/
def specCharUtils (marker : Int) : CharUtils :=
  ⟨attachBeginningOfSentenceMarker marker⟩

/-- The code points and the count that reach the dictionary for a stored word: the copy of the
first `wordCodePointCount` code points, with the marker attached when the word begins a
sentence. -/
def queriedWord (d : Defines) (charUtils : CharUtils) (wordCodePoints : Nat → Int)
    (wordCodePointCount : Int) (isBeginningOfSentence : Bool) : List Int × Int :=
  attachIfBeginningOfSentence d charUtils
    (readCodePoints wordCodePoints wordCodePointCount.toNat) wordCodePointCount
    isBeginningOfSentence

/-! A stub dictionary for the worked examples -/

/-- Sample constants: words of at most 48 code points, two context slots. -/
def sampleDefines : Defines := ⟨48, 2, -2147483648, by decide, by decide⟩

/-- Lowercasing of the stub dictionary: ASCII capitals only. -/
def toLowerAscii (c : Int) : Int := if 65 ≤ c ∧ c ≤ 90 then c + 32 else c

/-- The terminal nodes of the stub dictionary: "the" at 7, "Bob" at 9, "bob" at 11; "The" is
absent. -/
def sampleTerminalPosition (w : List Int) : Int :=
  if w = [116, 104, 101] then 7
  else if w = [66, 111, 98] then 9
  else if w = [98, 111, 98] then 11
  else -2147483648

/-- A stub dictionary: "the" has its bigram list at 21 and "bob" at 33; "Bob" has none. -/
def sampleDictionary : DictionaryStructureWithBufferPolicy where
  getTerminalPtNodePositionOfWord := fun codePoints codePointCount forceLowerCaseSearch =>
    sampleTerminalPosition
      ((if forceLowerCaseSearch then codePoints.map toLowerAscii else codePoints).take
        codePointCount.toNat)
  getBigramsPositionOfPtNode := fun ptNodePos =>
    if ptNodePos = 7 then 21 else if ptNodePos = 11 then 33 else -2147483648
  getBigramsStructurePolicy := ⟨1⟩

/-- A word view onto a caller buffer holding `w` (zero beyond it). -/
def wordView (w : List Int) : Nat → Int := fun i => w.getD i 0

/-- The code points of "The". -/
def wordThe : List Int := [84, 104, 101]

/-- The code points of "Bob". -/
def wordBob : List Int := [66, 111, 98]

/-- A helper class whose injector is the one modelled above, with marker 0x110000. -/
def sampleCharUtils : CharUtils := specCharUtils 1114112

/-- The length argument of the `memmove`, `sizeof(int) * codePointCount`, as the `size_t` it is
converted to, in bytes; `sizeof(int)` is 4 and `size_t` has `sizeBits` bits. -/
def memmoveByteCount (sizeBits : Nat) (codePointCount : Int) : Int :=
  (4 * codePointCount) % 2 ^ sizeBits

/-- A stub dictionary in which the empty word is a terminal node, at 5, with its bigram list at
50, and no other word is known. -/
def emptyWordDictionary : DictionaryStructureWithBufferPolicy where
  getTerminalPtNodePositionOfWord := fun _ codePointCount _ =>
    if codePointCount = 0 then 5 else -2147483648
  getBigramsPositionOfPtNode := fun ptNodePos => if ptNodePos = 5 then 50 else -2147483648
  getBigramsStructurePolicy := ⟨2⟩

/-! Runs -/

theorem Run.bind_value {α β : Type} (r : Run α) (f : α → Run β) :
    (r.bind f).value = r.value.bind fun a => (f a).value := by
  unfold Run.bind
  cases h : r.value <;> simp

theorem Run.bind_events {α β : Type} (r : Run α) (f : α → Run β) :
    (r.bind f).events
      = r.events ++ (match r.value with | none => [] | some a => (f a).events) := by
  unfold Run.bind
  cases h : r.value <;> simp

theorem Run.eq_iff {α : Type} (r s : Run α) :
    r = s ↔ r.events = s.events ∧ r.value = s.value := by
  cases r; cases s; simp

theorem Run.pure_bind {α β : Type} (a : α) (f : α → Run β) : (Run.pure a).bind f = f a := by
  simp [Run.pure, Run.bind]

/-! One slot: the terminal node -/

theorem getTerminalPtNodePosOfWord_null_dictionary (d : Defines) (charUtils : CharUtils)
    (wordCodePoints : Option (Nat → Int)) (wordCodePointCount : Int)
    (isBeginningOfSentence tryLowerCaseSearch : Bool) :
    getTerminalPtNodePosOfWord d charUtils none wordCodePoints wordCodePointCount
      isBeginningOfSentence tryLowerCaseSearch = Run.pure d.NOT_A_DICT_POS := by
  unfold getTerminalPtNodePosOfWord
  rfl

theorem getTerminalPtNodePosOfWord_null_word (d : Defines) (charUtils : CharUtils)
    (dictStructurePolicy : Option DictionaryStructureWithBufferPolicy) (wordCodePointCount : Int)
    (isBeginningOfSentence tryLowerCaseSearch : Bool) :
    getTerminalPtNodePosOfWord d charUtils dictStructurePolicy none wordCodePointCount
      isBeginningOfSentence tryLowerCaseSearch = Run.pure d.NOT_A_DICT_POS := by
  unfold getTerminalPtNodePosOfWord
  cases dictStructurePolicy <;> rfl

theorem getTerminalPtNodePosOfWord_too_long (d : Defines) (charUtils : CharUtils)
    (dictStructurePolicy : Option DictionaryStructureWithBufferPolicy)
    (wordCodePoints : Option (Nat → Int)) (wordCodePointCount : Int)
    (isBeginningOfSentence tryLowerCaseSearch : Bool)
    (hlong : wordCodePointCount > d.MAX_WORD_LENGTH) :
    getTerminalPtNodePosOfWord d charUtils dictStructurePolicy wordCodePoints wordCodePointCount
      isBeginningOfSentence tryLowerCaseSearch = Run.pure d.NOT_A_DICT_POS := by
  unfold getTerminalPtNodePosOfWord
  cases dictStructurePolicy <;> cases wordCodePoints <;> simp [hlong]

theorem getTerminalPtNodePosOfWord_guarded (d : Defines) (charUtils : CharUtils)
    (policy : DictionaryStructureWithBufferPolicy) (word : Nat → Int) (n : Nat)
    (isBeginningOfSentence tryLowerCaseSearch : Bool) (hlen : n ≤ d.MAX_WORD_LENGTH)
    (hmark : isBeginningOfSentence = true →
      0 < (queriedWord d charUtils word n isBeginningOfSentence).2) :
    getTerminalPtNodePosOfWord d charUtils (some policy) (some word) n isBeginningOfSentence
        tryLowerCaseSearch
      = ⟨Event.memmove n
          :: Event.terminalLookup (queriedWord d charUtils word n isBeginningOfSentence).1
              (queriedWord d charUtils word n isBeginningOfSentence).2 false
          :: (if policy.getTerminalPtNodePositionOfWord
                  (queriedWord d charUtils word n isBeginningOfSentence).1
                  (queriedWord d charUtils word n isBeginningOfSentence).2 false
                = d.NOT_A_DICT_POS ∧ tryLowerCaseSearch = true then
                [Event.terminalLookup (queriedWord d charUtils word n isBeginningOfSentence).1
                  (queriedWord d charUtils word n isBeginningOfSentence).2 true]
              else []),
          some (if policy.getTerminalPtNodePositionOfWord
                  (queriedWord d charUtils word n isBeginningOfSentence).1
                  (queriedWord d charUtils word n isBeginningOfSentence).2 false
                = d.NOT_A_DICT_POS ∧ tryLowerCaseSearch = true then
                policy.getTerminalPtNodePositionOfWord
                  (queriedWord d charUtils word n isBeginningOfSentence).1
                  (queriedWord d charUtils word n isBeginningOfSentence).2 true
              else
                policy.getTerminalPtNodePositionOfWord
                  (queriedWord d charUtils word n isBeginningOfSentence).1
                  (queriedWord d charUtils word n isBeginningOfSentence).2 false)⟩ := by
  have hle : ¬ ((n : Int) > (d.MAX_WORD_LENGTH : Int)) := by omega
  have hcopy : (0 : Int) ≤ (n : Int) ∧ (n : Int) ≤ (d.MAX_WORD_LENGTH : Int) := by omega
  have hguard : (isBeginningOfSentence &&
      decide ((queriedWord d charUtils word n isBeginningOfSentence).2 ≤ 0)) = false := by
    cases hb : isBeginningOfSentence with
    | false => simp
    | true =>
      have := hmark hb
      rw [hb] at this
      simp only [Bool.true_and, decide_eq_false_iff_not, not_le]
      exact this
  unfold queriedWord at hguard ⊢
  simp only [Int.toNat_ofNat] at hguard ⊢
  unfold getTerminalPtNodePosOfWord memmove
  simp only [hle, hcopy, if_false, if_true, and_self, Int.toNat_ofNat]
  unfold Run.bind
  simp only [hguard]
  unfold callGetTerminalPtNodePositionOfWord Run.pure
  by_cases hr : policy.getTerminalPtNodePositionOfWord
      (attachIfBeginningOfSentence d charUtils (readCodePoints word n) n
        isBeginningOfSentence).1
      (attachIfBeginningOfSentence d charUtils (readCodePoints word n) n
        isBeginningOfSentence).2 false = d.NOT_A_DICT_POS
  · cases tryLowerCaseSearch <;> simp [hr]
  · cases tryLowerCaseSearch <;> simp [hr]

/-- A slot that resolves without the lowercase retry resolves with it too, to the same position
when that position is a real one. -/
theorem getTerminalPtNodePosOfWord_value_try (d : Defines) (charUtils : CharUtils)
    (dictStructurePolicy : Option DictionaryStructureWithBufferPolicy)
    (wordCodePoints : Option (Nat → Int)) (wordCodePointCount : Int)
    (isBeginningOfSentence : Bool) (p : Int)
    (h : (getTerminalPtNodePosOfWord d charUtils dictStructurePolicy wordCodePoints
      wordCodePointCount isBeginningOfSentence false).value = some p) :
    ∃ q, (getTerminalPtNodePosOfWord d charUtils dictStructurePolicy wordCodePoints
        wordCodePointCount isBeginningOfSentence true).value = some q
      ∧ (p ≠ d.NOT_A_DICT_POS → q = p) := by
  cases dictStructurePolicy with
  | none =>
    rw [getTerminalPtNodePosOfWord_null_dictionary] at h ⊢
    exact ⟨d.NOT_A_DICT_POS, rfl, fun hp => absurd (Option.some.inj h).symm hp⟩
  | some policy =>
    cases wordCodePoints with
    | none =>
      rw [getTerminalPtNodePosOfWord_null_word] at h ⊢
      exact ⟨d.NOT_A_DICT_POS, rfl, fun hp => absurd (Option.some.inj h).symm hp⟩
    | some word =>
      by_cases hlong : wordCodePointCount > d.MAX_WORD_LENGTH
      · rw [getTerminalPtNodePosOfWord_too_long _ _ _ _ _ _ _ hlong] at h ⊢
        exact ⟨d.NOT_A_DICT_POS, rfl, fun hp => absurd (Option.some.inj h).symm hp⟩
      · by_cases hneg : 0 ≤ wordCodePointCount
        · obtain ⟨n, rfl⟩ := Int.eq_ofNat_of_zero_le hneg
          have hlen : n ≤ d.MAX_WORD_LENGTH := by omega
          by_cases hmark : isBeginningOfSentence = true →
              0 < (queriedWord d charUtils word n isBeginningOfSentence).2
          · rw [getTerminalPtNodePosOfWord_guarded d charUtils policy word n _ _ hlen hmark]
              at h ⊢
            simp only [Bool.false_eq_true, and_false, if_false, and_true] at h ⊢
            have hp := Option.some.inj h
            by_cases hr : policy.getTerminalPtNodePositionOfWord
                (queriedWord d charUtils word n isBeginningOfSentence).1
                (queriedWord d charUtils word n isBeginningOfSentence).2 false
                = d.NOT_A_DICT_POS
            · refine ⟨_, rfl, fun hne => ?_⟩
              exact absurd (hp ▸ hr) hne
            · refine ⟨p, ?_, fun _ => rfl⟩
              rw [if_neg hr]
              exact h
          · have hb : isBeginningOfSentence = true := by
              by_contra hb
              exact hmark (fun h' => absurd h' hb)
            have hq : (queriedWord d charUtils word n isBeginningOfSentence).2 ≤ 0 := by
              by_contra hq
              exact hmark (fun _ => by omega)
            subst hb
            have hcopy : (0 : Int) ≤ (n : Int) ∧ (n : Int) ≤ (d.MAX_WORD_LENGTH : Int) := by omega
            unfold queriedWord at hq
            unfold getTerminalPtNodePosOfWord memmove Run.bind at h ⊢
            simp only [hlong, hcopy, if_false, if_true, and_self, Bool.true_and, hq,
              decide_True] at h ⊢
            refine ⟨d.NOT_A_DICT_POS, rfl, fun hp => ?_⟩
            simp [Run.pure] at h
            exact absurd h.symm hp
        · exfalso
          have hcopy : ¬ ((0 : Int) ≤ wordCodePointCount
              ∧ wordCodePointCount ≤ (d.MAX_WORD_LENGTH : Int)) := fun hc => hneg hc.1
          unfold getTerminalPtNodePosOfWord memmove Run.bind at h
          simp [hlong, hcopy] at h

/-- A negative count passes the length guard and makes the copy overrun the scratch buffer: the
run ends there, before any lookup. -/
theorem getTerminalPtNodePosOfWord_negative_count (d : Defines) (charUtils : CharUtils)
    (policy : DictionaryStructureWithBufferPolicy) (word : Nat → Int) (wordCodePointCount : Int)
    (isBeginningOfSentence tryLowerCaseSearch : Bool) (hneg : wordCodePointCount < 0) :
    getTerminalPtNodePosOfWord d charUtils (some policy) (some word) wordCodePointCount
      isBeginningOfSentence tryLowerCaseSearch = ⟨[Event.memmove wordCodePointCount], none⟩ := by
  have hle : ¬ (wordCodePointCount > (d.MAX_WORD_LENGTH : Int)) := by omega
  have hcopy : ¬ ((0 : Int) ≤ wordCodePointCount
      ∧ wordCodePointCount ≤ (d.MAX_WORD_LENGTH : Int)) := fun hc => by omega
  unfold getTerminalPtNodePosOfWord memmove Run.bind
  simp [hle, hcopy]

/-! The context arrays -/

theorem finRange_first (d : Defines) :
    ∃ rest, List.finRange d.MAX_PREV_WORD_COUNT_FOR_N_GRAM = d.first :: rest
      ∧ d.first ∉ rest ∧ rest.length + 1 = d.MAX_PREV_WORD_COUNT_FOR_N_GRAM := by
  obtain ⟨w, k, e, hw, hk⟩ := d
  cases k with
  | zero => exact absurd hk (by decide)
  | succ k =>
    refine ⟨(List.finRange k).map Fin.succ, List.finRange_succ_eq_map k, ?_, by simp⟩
    simp only [List.mem_map, not_exists, not_and]
    intro x _ hx
    exact Fin.succ_ne_zero x hx

theorem ofPrevWord_first (d : Defines) (prevWordCodePoints : Option (Nat → Int))
    (prevWordCodePointCount : Int) (isBeginningOfSentence : Bool) :
    (PrevWordsInfo.ofPrevWord d prevWordCodePoints prevWordCodePointCount
        isBeginningOfSentence).mPrevWordCodePoints d.first = prevWordCodePoints
      ∧ (PrevWordsInfo.ofPrevWord d prevWordCodePoints prevWordCodePointCount
        isBeginningOfSentence).mPrevWordCodePointCount d.first = prevWordCodePointCount
      ∧ (PrevWordsInfo.ofPrevWord d prevWordCodePoints prevWordCodePointCount
        isBeginningOfSentence).mIsBeginningOfSentence d.first = isBeginningOfSentence := by
  simp [PrevWordsInfo.ofPrevWord]

theorem ofPrevWord_other (d : Defines) (prevWordCodePoints : Option (Nat → Int))
    (prevWordCodePointCount : Int) (isBeginningOfSentence : Bool)
    (i : Fin d.MAX_PREV_WORD_COUNT_FOR_N_GRAM) (hi : i ≠ d.first) :
    (PrevWordsInfo.ofPrevWord d prevWordCodePoints prevWordCodePointCount
        isBeginningOfSentence).mPrevWordCodePoints i = none
      ∧ (PrevWordsInfo.ofPrevWord d prevWordCodePoints prevWordCodePointCount
        isBeginningOfSentence).mPrevWordCodePointCount i = 0
      ∧ (PrevWordsInfo.ofPrevWord d prevWordCodePoints prevWordCodePointCount
        isBeginningOfSentence).mIsBeginningOfSentence i = false := by
  simp [PrevWordsInfo.ofPrevWord, PrevWordsInfo.clear, Function.update_noteq hi]

/-! `isValid` -/

theorem isValidFrom_iff {d : Defines} (self : PrevWordsInfo d)
    (slots : List (Fin d.MAX_PREV_WORD_COUNT_FOR_N_GRAM)) :
    self.isValidFrom slots = true
      ↔ ∀ i ∈ slots, self.mPrevWordCodePointCount i ≤ d.MAX_WORD_LENGTH := by
  induction slots with
  | nil => simp [PrevWordsInfo.isValidFrom]
  | cons i rest ih =>
    unfold PrevWordsInfo.isValidFrom
    by_cases h : self.mPrevWordCodePointCount i > d.MAX_WORD_LENGTH
    · simp only [h, if_true, Bool.false_eq_true, List.mem_cons, forall_eq_or_imp, false_iff,
        not_and]
      intro h'
      omega
    · simp only [h, if_false, ih, List.mem_cons, forall_eq_or_imp, iff_and_self]
      intro _
      omega

theorem isValid_iff {d : Defines} (self : PrevWordsInfo d) :
    self.isValid = true ↔ ∀ i, self.mPrevWordCodePointCount i ≤ d.MAX_WORD_LENGTH := by
  unfold PrevWordsInfo.isValid
  rw [isValidFrom_iff]
  exact ⟨fun h i => h i (List.mem_finRange i), fun h i _ => h i⟩

theorem isValid_ofPrevWord_iff (d : Defines) (prevWordCodePoints : Option (Nat → Int))
    (prevWordCodePointCount : Int) (isBeginningOfSentence : Bool) :
    (PrevWordsInfo.ofPrevWord d prevWordCodePoints prevWordCodePointCount
        isBeginningOfSentence).isValid = true
      ↔ prevWordCodePointCount ≤ d.MAX_WORD_LENGTH := by
  rw [isValid_iff]
  constructor
  · intro h
    have := h d.first
    rwa [(ofPrevWord_first d _ _ _).2.1] at this
  · intro h i
    by_cases hi : i = d.first
    · rw [hi, (ofPrevWord_first d _ _ _).2.1]
      exact h
    · rw [(ofPrevWord_other d _ _ _ i hi).2.1]
      exact Int.natCast_nonneg _

theorem isValid_new (d : Defines) : (PrevWordsInfo.new d).isValid = true := by
  rw [isValid_iff]
  intro i
  exact Int.natCast_nonneg _

/-! The loop of `getPrevWordsTerminalPtNodePos` -/

theorem getPrevWordsTerminalPtNodePosFrom_null {d : Defines} (self : PrevWordsInfo d)
    (charUtils : CharUtils) (dictStructurePolicy : Option DictionaryStructureWithBufferPolicy)
    (tryLowerCaseSearch : Bool) (slots : List (Fin d.MAX_PREV_WORD_COUNT_FOR_N_GRAM))
    (hnull : ∀ i ∈ slots, self.mPrevWordCodePoints i = none) :
    self.getPrevWordsTerminalPtNodePosFrom charUtils dictStructurePolicy tryLowerCaseSearch slots
      = Run.pure (List.replicate slots.length d.NOT_A_DICT_POS) := by
  induction slots with
  | nil => rfl
  | cons i rest ih =>
    unfold PrevWordsInfo.getPrevWordsTerminalPtNodePosFrom
    rw [hnull i (List.mem_cons_self i rest), getTerminalPtNodePosOfWord_null_word,
      ih (fun j hj => hnull j (List.mem_cons_of_mem i hj)), Run.pure_bind, Run.pure_bind]
    rfl

theorem getPrevWordsTerminalPtNodePosFrom_null_dictionary {d : Defines} (self : PrevWordsInfo d)
    (charUtils : CharUtils) (tryLowerCaseSearch : Bool)
    (slots : List (Fin d.MAX_PREV_WORD_COUNT_FOR_N_GRAM)) :
    self.getPrevWordsTerminalPtNodePosFrom charUtils none tryLowerCaseSearch slots
      = Run.pure (List.replicate slots.length d.NOT_A_DICT_POS) := by
  induction slots with
  | nil => rfl
  | cons i rest ih =>
    unfold PrevWordsInfo.getPrevWordsTerminalPtNodePosFrom
    rw [getTerminalPtNodePosOfWord_null_dictionary, ih, Run.pure_bind, Run.pure_bind]
    rfl

/-- On a context built from one previous word, the loop is the resolution of slot 1 followed by
the sentinel for every other slot. -/
theorem getPrevWordsTerminalPtNodePos_ofPrevWord (d : Defines) (charUtils : CharUtils)
    (dictStructurePolicy : Option DictionaryStructureWithBufferPolicy)
    (prevWordCodePoints : Option (Nat → Int)) (prevWordCodePointCount : Int)
    (isBeginningOfSentence tryLowerCaseSearch : Bool) :
    (PrevWordsInfo.ofPrevWord d prevWordCodePoints prevWordCodePointCount
        isBeginningOfSentence).getPrevWordsTerminalPtNodePos charUtils dictStructurePolicy
        tryLowerCaseSearch
      = (getTerminalPtNodePosOfWord d charUtils dictStructurePolicy prevWordCodePoints
          prevWordCodePointCount isBeginningOfSentence tryLowerCaseSearch).bind fun pos =>
          Run.pure (pos :: List.replicate (d.MAX_PREV_WORD_COUNT_FOR_N_GRAM - 1)
            d.NOT_A_DICT_POS) := by
  obtain ⟨rest, hrange, hnot, hlen⟩ := finRange_first d
  unfold PrevWordsInfo.getPrevWordsTerminalPtNodePos
  rw [hrange]
  unfold PrevWordsInfo.getPrevWordsTerminalPtNodePosFrom
  rw [getPrevWordsTerminalPtNodePosFrom_null _ _ _ _ rest
    (fun i hi => (ofPrevWord_other d _ _ _ i (fun h => hnot (h ▸ hi))).1)]
  rw [(ofPrevWord_first d _ _ _).1, (ofPrevWord_first d _ _ _).2.1,
    (ofPrevWord_first d _ _ _).2.2]
  have hk : d.MAX_PREV_WORD_COUNT_FOR_N_GRAM - 1 = rest.length := by omega
  rw [hk]
  simp only [Run.pure_bind]

/-- Slot by slot, a run without the lowercase retry and a run with it. -/
theorem getPrevWordsTerminalPtNodePosFrom_try {d : Defines} (self : PrevWordsInfo d)
    (charUtils : CharUtils) (dictStructurePolicy : Option DictionaryStructureWithBufferPolicy)
    (slots : List (Fin d.MAX_PREV_WORD_COUNT_FOR_N_GRAM)) (outFalse : List Int)
    (h : (self.getPrevWordsTerminalPtNodePosFrom charUtils dictStructurePolicy false
      slots).value = some outFalse) :
    ∃ outTrue, (self.getPrevWordsTerminalPtNodePosFrom charUtils dictStructurePolicy true
        slots).value = some outTrue
      ∧ ∀ (i : Nat) (p : Int), outFalse[i]? = some p → p ≠ d.NOT_A_DICT_POS →
        outTrue[i]? = some p := by
  induction slots generalizing outFalse with
  | nil =>
    refine ⟨[], rfl, ?_⟩
    intro i p hi
    have : outFalse = [] := by
      simpa [PrevWordsInfo.getPrevWordsTerminalPtNodePosFrom, Run.pure] using h.symm
    subst this
    simp at hi
  | cons s rest ih =>
    unfold PrevWordsInfo.getPrevWordsTerminalPtNodePosFrom at h ⊢
    rw [Run.bind_value] at h ⊢
    cases h0 : (getTerminalPtNodePosOfWord d charUtils dictStructurePolicy
        (self.mPrevWordCodePoints s) (self.mPrevWordCodePointCount s)
        (self.mIsBeginningOfSentence s) false).value with
    | none => simp [h0] at h
    | some p0 =>
      obtain ⟨q0, hq0, hq0p⟩ := getTerminalPtNodePosOfWord_value_try _ _ _ _ _ _ _ h0
      rw [h0] at h
      rw [hq0]
      simp only [Option.some_bind, Run.bind_value] at h ⊢
      cases h1 : (self.getPrevWordsTerminalPtNodePosFrom charUtils dictStructurePolicy false
          rest).value with
      | none => simp [h1] at h
      | some out1 =>
        obtain ⟨out1t, hout1t, hrel⟩ := ih out1 h1
        rw [h1] at h
        rw [hout1t]
        simp only [Option.some_bind, Run.pure, Option.some.injEq] at h ⊢
        subst h
        refine ⟨q0 :: out1t, rfl, ?_⟩
        intro i p hi hp
        cases i with
        | zero =>
          simp only [List.getElem?_cons_zero, Option.some.injEq] at hi ⊢
          subst hi
          exact hq0p hp
        | succ i =>
          simp only [List.getElem?_cons_succ] at hi ⊢
          exact hrel i p hi hp

/-! One slot: the bigram list -/

theorem getBigramListPositionForWord_value (d : Defines)
    (policy : DictionaryStructureWithBufferPolicy) (wordCodePoints : List Int)
    (wordCodePointCount : Int) (forceLowerCaseSearch : Bool) :
    (getBigramListPositionForWord d policy wordCodePoints wordCodePointCount
        forceLowerCaseSearch).value
      = some (if wordCodePointCount ≤ 0 then d.NOT_A_DICT_POS
          else if d.NOT_A_DICT_POS = policy.getTerminalPtNodePositionOfWord wordCodePoints
              wordCodePointCount forceLowerCaseSearch then d.NOT_A_DICT_POS
          else policy.getBigramsPositionOfPtNode
            (policy.getTerminalPtNodePositionOfWord wordCodePoints wordCodePointCount
              forceLowerCaseSearch)) := by
  unfold getBigramListPositionForWord
  by_cases hc : wordCodePointCount ≤ 0
  · simp [hc, Run.pure]
  · by_cases ht : d.NOT_A_DICT_POS = policy.getTerminalPtNodePositionOfWord wordCodePoints
        wordCodePointCount forceLowerCaseSearch
    · simp only [hc, if_false, Run.bind_value, callGetTerminalPtNodePositionOfWord,
        Option.some_bind, if_pos ht, Run.pure]
    · simp only [hc, if_false, Run.bind_value, callGetTerminalPtNodePositionOfWord,
        Option.some_bind, if_neg ht, callGetBigramsPositionOfPtNode]

theorem getBigramListPositionForWordWithTryingLowerCaseSearch_null_dictionary (d : Defines)
    (charUtils : CharUtils) (wordCodePoints : Option (Nat → Int)) (wordCodePointCount : Int)
    (isBeginningOfSentence : Bool) :
    getBigramListPositionForWordWithTryingLowerCaseSearch d charUtils none wordCodePoints
      wordCodePointCount isBeginningOfSentence = Run.pure d.NOT_A_DICT_POS := by
  unfold getBigramListPositionForWordWithTryingLowerCaseSearch
  rfl

theorem getBigramListPositionForWordWithTryingLowerCaseSearch_null_word (d : Defines)
    (charUtils : CharUtils) (dictStructurePolicy : Option DictionaryStructureWithBufferPolicy)
    (wordCodePointCount : Int) (isBeginningOfSentence : Bool) :
    getBigramListPositionForWordWithTryingLowerCaseSearch d charUtils dictStructurePolicy none
      wordCodePointCount isBeginningOfSentence = Run.pure d.NOT_A_DICT_POS := by
  unfold getBigramListPositionForWordWithTryingLowerCaseSearch
  cases dictStructurePolicy <;> rfl

theorem getBigramListPositionForWordWithTryingLowerCaseSearch_too_long (d : Defines)
    (charUtils : CharUtils) (dictStructurePolicy : Option DictionaryStructureWithBufferPolicy)
    (wordCodePoints : Option (Nat → Int)) (wordCodePointCount : Int)
    (isBeginningOfSentence : Bool) (hlong : wordCodePointCount > d.MAX_WORD_LENGTH) :
    getBigramListPositionForWordWithTryingLowerCaseSearch d charUtils dictStructurePolicy
      wordCodePoints wordCodePointCount isBeginningOfSentence = Run.pure d.NOT_A_DICT_POS := by
  unfold getBigramListPositionForWordWithTryingLowerCaseSearch
  cases dictStructurePolicy <;> cases wordCodePoints <;> simp [hlong]

/-- With the guards passed, the position found is the case-sensitive one unless that is the
sentinel, and then the lowercase one. -/
theorem getBigramListPositionForWordWithTryingLowerCaseSearch_guarded (d : Defines)
    (charUtils : CharUtils) (policy : DictionaryStructureWithBufferPolicy) (word : Nat → Int)
    (n : Nat) (isBeginningOfSentence : Bool) (hlen : n ≤ d.MAX_WORD_LENGTH)
    (hmark : isBeginningOfSentence = true →
      0 < (queriedWord d charUtils word n isBeginningOfSentence).2) :
    (getBigramListPositionForWordWithTryingLowerCaseSearch d charUtils (some policy) (some word)
        n isBeginningOfSentence).value
      = ((getBigramListPositionForWord d policy
            (queriedWord d charUtils word n isBeginningOfSentence).1
            (queriedWord d charUtils word n isBeginningOfSentence).2 false).bind fun pos =>
          if d.NOT_A_DICT_POS = pos then
            getBigramListPositionForWord d policy
              (queriedWord d charUtils word n isBeginningOfSentence).1
              (queriedWord d charUtils word n isBeginningOfSentence).2 true
          else Run.pure pos).value := by
  have hle : ¬ ((n : Int) > (d.MAX_WORD_LENGTH : Int)) := by omega
  have hcopy : (0 : Int) ≤ (n : Int) ∧ (n : Int) ≤ (d.MAX_WORD_LENGTH : Int) := by omega
  have hguard : (isBeginningOfSentence &&
      decide ((queriedWord d charUtils word n isBeginningOfSentence).2 ≤ 0)) = false := by
    cases hb : isBeginningOfSentence with
    | false => simp
    | true =>
      have := hmark hb
      rw [hb] at this
      simp only [Bool.true_and, decide_eq_false_iff_not, not_le]
      exact this
  unfold queriedWord at hguard ⊢
  simp only [Int.toNat_ofNat] at hguard ⊢
  unfold getBigramListPositionForWordWithTryingLowerCaseSearch memmove
  simp only [hle, hcopy, if_false, if_true, and_self, Int.toNat_ofNat]
  rw [Run.bind_value]
  simp only [Option.some_bind, hguard, Bool.false_eq_true, if_false]

theorem getBigramsIteratorForPrediction_present {d : Defines} (self : PrevWordsInfo d)
    (charUtils : CharUtils) (policy : DictionaryStructureWithBufferPolicy) :
    (self.getBigramsIteratorForPrediction charUtils (some policy)).events
        = (getBigramListPositionForWordWithTryingLowerCaseSearch d charUtils (some policy)
            (self.mPrevWordCodePoints d.first) (self.mPrevWordCodePointCount d.first)
            (self.mIsBeginningOfSentence d.first)).events
      ∧ (self.getBigramsIteratorForPrediction charUtils (some policy)).value
        = (getBigramListPositionForWordWithTryingLowerCaseSearch d charUtils (some policy)
            (self.mPrevWordCodePoints d.first) (self.mPrevWordCodePointCount d.first)
            (self.mIsBeginningOfSentence d.first)).value.map fun bigramListPos =>
              ⟨policy.getBigramsStructurePolicy, bigramListPos⟩ := by
  unfold PrevWordsInfo.getBigramsIteratorForPrediction
  rw [Run.bind_events, Run.bind_value]
  cases (getBigramListPositionForWordWithTryingLowerCaseSearch d charUtils (some policy)
      (self.mPrevWordCodePoints d.first) (self.mPrevWordCodePointCount d.first)
      (self.mIsBeginningOfSentence d.first)).value <;> simp [Run.pure]

/-! The claims -/

/-- C1: for a context of one previous word whose view is present, whose length `n` (a number of
code points) is at most `MAX_WORD_LENGTH` and whose marker, when the word begins a sentence, was
attached, if the case-sensitive terminal-node lookup gives `NOT_A_DICT_POS` then slot 1 of
`getPrevWordsTerminalPtNodePos` with `tryLowerCaseSearch = true` is the result of the same lookup
with lowercase forced. -/
theorem getPrevWordsTerminalPtNodePos_lower_case_fallback (d : Defines) (charUtils : CharUtils)
    (policy : DictionaryStructureWithBufferPolicy) (word : Nat → Int) (n : Nat)
    (isBeginningOfSentence : Bool) (hlen : n ≤ d.MAX_WORD_LENGTH)
    (hmark : isBeginningOfSentence = true →
      0 < (queriedWord d charUtils word n isBeginningOfSentence).2)
    (hmiss : policy.getTerminalPtNodePositionOfWord
        (queriedWord d charUtils word n isBeginningOfSentence).1
        (queriedWord d charUtils word n isBeginningOfSentence).2 false = d.NOT_A_DICT_POS) :
    ((PrevWordsInfo.ofPrevWord d (some word) n isBeginningOfSentence).getPrevWordsTerminalPtNodePos
        charUtils (some policy) true).value.bind (fun out => out[0]?)
      = some (policy.getTerminalPtNodePositionOfWord
          (queriedWord d charUtils word n isBeginningOfSentence).1
          (queriedWord d charUtils word n isBeginningOfSentence).2 true) := by
  rw [getPrevWordsTerminalPtNodePos_ofPrevWord, Run.bind_value,
    getTerminalPtNodePosOfWord_guarded d charUtils policy word n _ _ hlen hmark]
  simp [hmiss, Run.pure]

/-- C1, on the stub dictionary: "The" is absent and "the" is at 7, and slot 1 for the previous
word "The" is 7 when the lowercase retry is asked for. -/
theorem getPrevWordsTerminalPtNodePos_lower_case_fallback_witness :
    sampleDictionary.getTerminalPtNodePositionOfWord wordThe 3 false
        = sampleDefines.NOT_A_DICT_POS
      ∧ ((PrevWordsInfo.ofPrevWord sampleDefines (some (wordView wordThe)) (3 : Nat)
          false).getPrevWordsTerminalPtNodePos sampleCharUtils (some sampleDictionary)
          true).value.bind (fun out => out[0]?) = some 7 :=
  ⟨by decide,
    (getPrevWordsTerminalPtNodePos_lower_case_fallback sampleDefines sampleCharUtils
      sampleDictionary (wordView wordThe) 3 false (by decide) (by decide) (by decide)).trans
      (by decide)⟩

/-- C2: for a context of one previous word that passes the guards (view present, length `n`, a
number of code points, at most `MAX_WORD_LENGTH`, marker attached when asked for), slot 1 of
`getPrevWordsTerminalPtNodePos` with `tryLowerCaseSearch = false` is the result of the
case-sensitive terminal-node lookup; so it is `NOT_A_DICT_POS` when that lookup misses, whatever
the lowercase lookup would find. -/
theorem getPrevWordsTerminalPtNodePos_case_sensitive (d : Defines) (charUtils : CharUtils)
    (policy : DictionaryStructureWithBufferPolicy) (word : Nat → Int) (n : Nat)
    (isBeginningOfSentence : Bool) (hlen : n ≤ d.MAX_WORD_LENGTH)
    (hmark : isBeginningOfSentence = true →
      0 < (queriedWord d charUtils word n isBeginningOfSentence).2) :
    ((PrevWordsInfo.ofPrevWord d (some word) n isBeginningOfSentence).getPrevWordsTerminalPtNodePos
          charUtils (some policy) false).value.bind (fun out => out[0]?)
        = some (policy.getTerminalPtNodePositionOfWord
            (queriedWord d charUtils word n isBeginningOfSentence).1
            (queriedWord d charUtils word n isBeginningOfSentence).2 false)
      ∧ (policy.getTerminalPtNodePositionOfWord
            (queriedWord d charUtils word n isBeginningOfSentence).1
            (queriedWord d charUtils word n isBeginningOfSentence).2 false = d.NOT_A_DICT_POS →
          ((PrevWordsInfo.ofPrevWord d (some word) n
            isBeginningOfSentence).getPrevWordsTerminalPtNodePos charUtils (some policy)
            false).value.bind (fun out => out[0]?) = some d.NOT_A_DICT_POS) := by
  have h : ((PrevWordsInfo.ofPrevWord d (some word) n
      isBeginningOfSentence).getPrevWordsTerminalPtNodePos charUtils (some policy)
      false).value.bind (fun out => out[0]?)
      = some (policy.getTerminalPtNodePositionOfWord
          (queriedWord d charUtils word n isBeginningOfSentence).1
          (queriedWord d charUtils word n isBeginningOfSentence).2 false) := by
    rw [getPrevWordsTerminalPtNodePos_ofPrevWord, Run.bind_value,
      getTerminalPtNodePosOfWord_guarded d charUtils policy word n _ _ hlen hmark]
    simp [Run.pure]
  exact ⟨h, fun hmiss => by rw [h, hmiss]⟩

/-- C2, on the stub dictionary: for the previous word "The" slot 1 is `NOT_A_DICT_POS` without the
lowercase retry, though the lowercase lookup finds "the" at 7. -/
theorem getPrevWordsTerminalPtNodePos_case_sensitive_witness :
    sampleDictionary.getTerminalPtNodePositionOfWord wordThe 3 true = 7
      ∧ ((PrevWordsInfo.ofPrevWord sampleDefines (some (wordView wordThe)) (3 : Nat)
          false).getPrevWordsTerminalPtNodePos sampleCharUtils (some sampleDictionary)
          false).value.bind (fun out => out[0]?) = some sampleDefines.NOT_A_DICT_POS :=
  ⟨by decide,
    (getPrevWordsTerminalPtNodePos_case_sensitive sampleDefines sampleCharUtils sampleDictionary
      (wordView wordThe) 3 false (by decide) (by decide)).2 (by decide)⟩

/-- C3: for every dictionary handle and every context, a slot that
`getPrevWordsTerminalPtNodePos` resolves to a position `p ≠ NOT_A_DICT_POS` with
`tryLowerCaseSearch = false` is resolved to the same `p` with `tryLowerCaseSearch = true`. -/
theorem getPrevWordsTerminalPtNodePos_exact_case_priority (d : Defines) (charUtils : CharUtils)
    (dictStructurePolicy : Option DictionaryStructureWithBufferPolicy) (self : PrevWordsInfo d)
    (outFalse : List Int) (i : Nat) (p : Int)
    (hrun : (self.getPrevWordsTerminalPtNodePos charUtils dictStructurePolicy false).value
      = some outFalse)
    (hslot : outFalse[i]? = some p) (hfound : p ≠ d.NOT_A_DICT_POS) :
    ∃ outTrue, (self.getPrevWordsTerminalPtNodePos charUtils dictStructurePolicy true).value
        = some outTrue ∧ outTrue[i]? = some p := by
  obtain ⟨outTrue, hrunTrue, hrel⟩ :=
    getPrevWordsTerminalPtNodePosFrom_try self charUtils dictStructurePolicy _ outFalse hrun
  exact ⟨outTrue, hrunTrue, hrel i p hslot hfound⟩

/-- C3, on the stub dictionary: "Bob" is at 9 and its lowercase form "bob" at 11; slot 1 for the
previous word "Bob" is 9 with the lowercase retry as without it. -/
theorem getPrevWordsTerminalPtNodePos_exact_case_priority_witness :
    sampleDictionary.getTerminalPtNodePositionOfWord wordBob 3 true = 11
      ∧ ∃ outTrue, ((PrevWordsInfo.ofPrevWord sampleDefines (some (wordView wordBob)) 3
          false).getPrevWordsTerminalPtNodePos sampleCharUtils (some sampleDictionary) true).value
          = some outTrue ∧ outTrue[0]? = some 9 :=
  ⟨by decide,
    getPrevWordsTerminalPtNodePos_exact_case_priority sampleDefines sampleCharUtils
      (some sampleDictionary)
      (PrevWordsInfo.ofPrevWord sampleDefines (some (wordView wordBob)) 3 false)
      [9, -2147483648] 0 9 (by decide) (by decide) (by decide)⟩

/-- C4: for a slot that passes the guards (dictionary and view present, length `n`, a number of
code points, at most `MAX_WORD_LENGTH`, marker attached when asked for), the terminal-node lookups
made for it are the case-sensitive one, followed by the lowercase-forced one exactly when the first returned
`NOT_A_DICT_POS` and `tryLowerCaseSearch` is true, and nothing else; the same holds of the whole
run of `getPrevWordsTerminalPtNodePos` on a context of one previous word. -/
theorem getTerminalPtNodePosOfWord_lookups (d : Defines) (charUtils : CharUtils)
    (policy : DictionaryStructureWithBufferPolicy) (word : Nat → Int) (n : Nat)
    (isBeginningOfSentence tryLowerCaseSearch : Bool) (hlen : n ≤ d.MAX_WORD_LENGTH)
    (hmark : isBeginningOfSentence = true →
      0 < (queriedWord d charUtils word n isBeginningOfSentence).2) :
    terminalLookups (getTerminalPtNodePosOfWord d charUtils (some policy) (some word) n
          isBeginningOfSentence tryLowerCaseSearch).events
        = ((queriedWord d charUtils word n isBeginningOfSentence).1,
            (queriedWord d charUtils word n isBeginningOfSentence).2, false)
          :: (if policy.getTerminalPtNodePositionOfWord
                (queriedWord d charUtils word n isBeginningOfSentence).1
                (queriedWord d charUtils word n isBeginningOfSentence).2 false
                = d.NOT_A_DICT_POS ∧ tryLowerCaseSearch = true then
              [((queriedWord d charUtils word n isBeginningOfSentence).1,
                (queriedWord d charUtils word n isBeginningOfSentence).2, true)]
            else [])
      ∧ terminalLookups ((PrevWordsInfo.ofPrevWord d (some word) n
          isBeginningOfSentence).getPrevWordsTerminalPtNodePos charUtils (some policy)
          tryLowerCaseSearch).events
        = ((queriedWord d charUtils word n isBeginningOfSentence).1,
            (queriedWord d charUtils word n isBeginningOfSentence).2, false)
          :: (if policy.getTerminalPtNodePositionOfWord
                (queriedWord d charUtils word n isBeginningOfSentence).1
                (queriedWord d charUtils word n isBeginningOfSentence).2 false
                = d.NOT_A_DICT_POS ∧ tryLowerCaseSearch = true then
              [((queriedWord d charUtils word n isBeginningOfSentence).1,
                (queriedWord d charUtils word n isBeginningOfSentence).2, true)]
            else []) := by
  rw [getPrevWordsTerminalPtNodePos_ofPrevWord, Run.bind_events,
    getTerminalPtNodePosOfWord_guarded d charUtils policy word n _ _ hlen hmark]
  by_cases hr : policy.getTerminalPtNodePositionOfWord
      (queriedWord d charUtils word n isBeginningOfSentence).1
      (queriedWord d charUtils word n isBeginningOfSentence).2 false = d.NOT_A_DICT_POS
  · cases tryLowerCaseSearch <;> simp [hr, terminalLookups, Run.pure]
  · cases tryLowerCaseSearch <;> simp [hr, terminalLookups, Run.pure]

/-- C4, on the stub dictionary: for the previous word "The" with the lowercase retry asked for,
the lookups are the case-sensitive one and then the lowercase one; for "Bob" there is the
case-sensitive one only. -/
theorem getTerminalPtNodePosOfWord_lookups_witness :
    terminalLookups (getTerminalPtNodePosOfWord sampleDefines sampleCharUtils
          (some sampleDictionary) (some (wordView wordThe)) (3 : Nat) false true).events
        = [(wordThe, 3, false), (wordThe, 3, true)]
      ∧ terminalLookups (getTerminalPtNodePosOfWord sampleDefines sampleCharUtils
          (some sampleDictionary) (some (wordView wordBob)) (3 : Nat) false true).events
        = [(wordBob, 3, false)] :=
  ⟨(getTerminalPtNodePosOfWord_lookups sampleDefines sampleCharUtils sampleDictionary
      (wordView wordThe) 3 false true (by decide) (by decide)).1.trans (by decide),
    (getTerminalPtNodePosOfWord_lookups sampleDefines sampleCharUtils sampleDictionary
      (wordView wordBob) 3 false true (by decide) (by decide)).1.trans (by decide)⟩

/-- C5: `getBigramsIteratorForPrediction` takes no flag.  For a context of one previous word, not
empty (`0 < n`), that passes the guards: if the case-sensitive stage gives `NOT_A_DICT_POS` (the
exact-case word has no terminal node, or its terminal node has no bigram list) and the
lowercase-forced lookup finds a terminal node `t`, the iterator is bound to the bigram-list
position of `t`. -/
theorem getBigramsIteratorForPrediction_lower_case_fallback (d : Defines) (charUtils : CharUtils)
    (policy : DictionaryStructureWithBufferPolicy) (word : Nat → Int) (n : Nat)
    (isBeginningOfSentence : Bool) (t : Int) (hword : 0 < n) (hlen : n ≤ d.MAX_WORD_LENGTH)
    (hmark : isBeginningOfSentence = true →
      0 < (queriedWord d charUtils word n isBeginningOfSentence).2)
    (hmiss : policy.getTerminalPtNodePositionOfWord
          (queriedWord d charUtils word n isBeginningOfSentence).1
          (queriedWord d charUtils word n isBeginningOfSentence).2 false = d.NOT_A_DICT_POS
        ∨ policy.getBigramsPositionOfPtNode
          (policy.getTerminalPtNodePositionOfWord
            (queriedWord d charUtils word n isBeginningOfSentence).1
            (queriedWord d charUtils word n isBeginningOfSentence).2 false) = d.NOT_A_DICT_POS)
    (hlower : policy.getTerminalPtNodePositionOfWord
        (queriedWord d charUtils word n isBeginningOfSentence).1
        (queriedWord d charUtils word n isBeginningOfSentence).2 true = t)
    (hfound : t ≠ d.NOT_A_DICT_POS) :
    ((PrevWordsInfo.ofPrevWord d (some word) n
        isBeginningOfSentence).getBigramsIteratorForPrediction charUtils (some policy)).value
      = some ⟨policy.getBigramsStructurePolicy, policy.getBigramsPositionOfPtNode t⟩ := by
  have hcount : ¬ (queriedWord d charUtils word n isBeginningOfSentence).2 ≤ 0 := by
    cases hb : isBeginningOfSentence with
    | true =>
      have := hmark hb
      rw [hb] at this
      omega
    | false =>
      simp only [queriedWord, attachIfBeginningOfSentence, Bool.false_eq_true, if_false]
      omega
  have hstage : (getBigramListPositionForWord d policy
      (queriedWord d charUtils word n isBeginningOfSentence).1
      (queriedWord d charUtils word n isBeginningOfSentence).2 false).value
      = some d.NOT_A_DICT_POS := by
    rw [getBigramListPositionForWord_value, if_neg hcount]
    by_cases ht : d.NOT_A_DICT_POS = policy.getTerminalPtNodePositionOfWord
        (queriedWord d charUtils word n isBeginningOfSentence).1
        (queriedWord d charUtils word n isBeginningOfSentence).2 false
    · rw [if_pos ht]
    · rw [if_neg ht]
      cases hmiss with
      | inl h => exact absurd h.symm ht
      | inr h => rw [h]
  rw [(getBigramsIteratorForPrediction_present _ charUtils policy).2, (ofPrevWord_first d _ _ _).1,
    (ofPrevWord_first d _ _ _).2.1, (ofPrevWord_first d _ _ _).2.2,
    getBigramListPositionForWordWithTryingLowerCaseSearch_guarded d charUtils policy word n _ hlen
      hmark,
    Run.bind_value, hstage]
  simp only [Option.some_bind, if_true, getBigramListPositionForWord_value, hcount, if_false,
    hlower, if_neg (Ne.symm hfound), Option.map_some']

/-- C5, on the stub dictionary: "Bob" is a word (at 9) without a bigram list, its lowercase form
"bob" is at 11 with its bigram list at 33; the iterator for the previous word "Bob" is bound
to 33. -/
theorem getBigramsIteratorForPrediction_lower_case_fallback_witness :
    sampleDictionary.getTerminalPtNodePositionOfWord wordBob 3 false = 9
      ∧ sampleDictionary.getBigramsPositionOfPtNode 9 = sampleDefines.NOT_A_DICT_POS
      ∧ ((PrevWordsInfo.ofPrevWord sampleDefines (some (wordView wordBob)) (3 : Nat)
          false).getBigramsIteratorForPrediction sampleCharUtils (some sampleDictionary)).value
        = some ⟨⟨1⟩, 33⟩ :=
  ⟨by decide, by decide,
    (getBigramsIteratorForPrediction_lower_case_fallback sampleDefines sampleCharUtils
      sampleDictionary (wordView wordBob) 3 false 11 (by decide) (by decide) (by decide)
      (by decide) (by decide) (by decide)).trans (by decide)⟩

/-- C6, as the code behaves: with a null dictionary handle `getBigramsIteratorForPrediction`
finds the position `NOT_A_DICT_POS` without a lookup and then dereferences the null handle; the
run ends in undefined behaviour and no iterator is produced, for every context. -/
theorem getBigramsIteratorForPrediction_null_dictionary (d : Defines) (charUtils : CharUtils)
    (self : PrevWordsInfo d) :
    (getBigramListPositionForWordWithTryingLowerCaseSearch d charUtils none
          (self.mPrevWordCodePoints d.first) (self.mPrevWordCodePointCount d.first)
          (self.mIsBeginningOfSentence d.first)).value = some d.NOT_A_DICT_POS
      ∧ (self.getBigramsIteratorForPrediction charUtils none).value = none := by
  unfold PrevWordsInfo.getBigramsIteratorForPrediction
  rw [getBigramListPositionForWordWithTryingLowerCaseSearch_null_dictionary, Run.pure_bind]
  exact ⟨rfl, rfl⟩

/-- C7: with the marker injector as the spec describes it, attaching the marker to a word of
exactly `MAX_WORD_LENGTH` code points fails (non-positive count), and a context of one previous
word of that length that begins a sentence has slot 1 resolved to `NOT_A_DICT_POS`, for every
dictionary handle, word view and flag value, with no terminal-node lookup made. -/
theorem getPrevWordsTerminalPtNodePos_marker_overflow (d : Defines) (marker : Int)
    (dictStructurePolicy : Option DictionaryStructureWithBufferPolicy)
    (prevWordCodePoints : Option (Nat → Int)) (tryLowerCaseSearch : Bool) :
    (∀ codePoints : List Int,
        ((specCharUtils marker).attachBeginningOfSentenceMarker codePoints d.MAX_WORD_LENGTH
          d.MAX_WORD_LENGTH).2 ≤ 0)
      ∧ ((PrevWordsInfo.ofPrevWord d prevWordCodePoints d.MAX_WORD_LENGTH
          true).getPrevWordsTerminalPtNodePos (specCharUtils marker) dictStructurePolicy
          tryLowerCaseSearch).value.bind (fun out => out[0]?) = some d.NOT_A_DICT_POS
      ∧ terminalLookups ((PrevWordsInfo.ofPrevWord d prevWordCodePoints d.MAX_WORD_LENGTH
          true).getPrevWordsTerminalPtNodePos (specCharUtils marker) dictStructurePolicy
          tryLowerCaseSearch).events = [] := by
  have hslot : (getTerminalPtNodePosOfWord d (specCharUtils marker) dictStructurePolicy
        prevWordCodePoints d.MAX_WORD_LENGTH true tryLowerCaseSearch).value
        = some d.NOT_A_DICT_POS
      ∧ terminalLookups (getTerminalPtNodePosOfWord d (specCharUtils marker) dictStructurePolicy
        prevWordCodePoints d.MAX_WORD_LENGTH true tryLowerCaseSearch).events = [] := by
    cases dictStructurePolicy with
    | none =>
      rw [getTerminalPtNodePosOfWord_null_dictionary]
      exact ⟨rfl, rfl⟩
    | some policy =>
      cases prevWordCodePoints with
      | none =>
        rw [getTerminalPtNodePosOfWord_null_word]
        exact ⟨rfl, rfl⟩
      | some word =>
        have hcopy : (0 : Int) ≤ (d.MAX_WORD_LENGTH : Int) := by omega
        unfold getTerminalPtNodePosOfWord memmove Run.bind
        simp [hcopy, attachIfBeginningOfSentence, specCharUtils,
          attachBeginningOfSentenceMarker, Run.pure, terminalLookups]
  refine ⟨fun codePoints => ?_, ?_⟩
  · simp [specCharUtils, attachBeginningOfSentenceMarker]
  · rw [getPrevWordsTerminalPtNodePos_ofPrevWord, Run.bind_value, Run.bind_events, hslot.1]
    simp [Run.pure, hslot.2, terminalLookups]

/-- C8: for every context, `isValid()` is true exactly when every one of the
`MAX_PREV_WORD_COUNT_FOR_N_GRAM` slots has a stored length of at most `MAX_WORD_LENGTH`; for a
context built from one previous word, exactly when the given length is at most
`MAX_WORD_LENGTH`. -/
theorem isValid_iff_lengths_bounded (d : Defines) :
    (∀ self : PrevWordsInfo d,
        self.isValid = true ↔ ∀ i, self.mPrevWordCodePointCount i ≤ d.MAX_WORD_LENGTH)
      ∧ ∀ (prevWordCodePoints : Option (Nat → Int)) (prevWordCodePointCount : Int)
          (isBeginningOfSentence : Bool),
          (PrevWordsInfo.ofPrevWord d prevWordCodePoints prevWordCodePointCount
            isBeginningOfSentence).isValid = true
          ↔ prevWordCodePointCount ≤ d.MAX_WORD_LENGTH :=
  ⟨fun self => isValid_iff self, fun p n b => isValid_ofPrevWord_iff d p n b⟩

/-- C9: for every constructed context for which `isValid()` is false and every present
dictionary, `getPrevWordsTerminalPtNodePos` writes `NOT_A_DICT_POS` to all
`MAX_PREV_WORD_COUNT_FOR_N_GRAM` slots for either flag value, and
`getBigramsIteratorForPrediction` binds the iterator to `NOT_A_DICT_POS`; neither makes a
dictionary lookup (nor any copy). -/
theorem invalid_context_resolves_to_nothing (d : Defines) (charUtils : CharUtils)
    (policy : DictionaryStructureWithBufferPolicy) (self : PrevWordsInfo d)
    (tryLowerCaseSearch : Bool) (hself : PrevWordsInfo.Constructed d self)
    (hinvalid : self.isValid = false) :
    (self.getPrevWordsTerminalPtNodePos charUtils (some policy) tryLowerCaseSearch).value
        = some (List.replicate d.MAX_PREV_WORD_COUNT_FOR_N_GRAM d.NOT_A_DICT_POS)
      ∧ (self.getPrevWordsTerminalPtNodePos charUtils (some policy) tryLowerCaseSearch).events
        = []
      ∧ (self.getBigramsIteratorForPrediction charUtils (some policy)).value
        = some ⟨policy.getBigramsStructurePolicy, d.NOT_A_DICT_POS⟩
      ∧ (self.getBigramsIteratorForPrediction charUtils (some policy)).events = [] := by
  cases hself with
  | new =>
    rw [isValid_new] at hinvalid
    exact absurd hinvalid (by decide)
  | ofPrevWord prevWordCodePoints prevWordCodePointCount isBeginningOfSentence =>
    have hlong : prevWordCodePointCount > d.MAX_WORD_LENGTH := by
      by_contra hle
      rw [(isValid_ofPrevWord_iff d prevWordCodePoints prevWordCodePointCount
        isBeginningOfSentence).2 (by omega)] at hinvalid
      exact absurd hinvalid (by decide)
    have hk : d.MAX_PREV_WORD_COUNT_FOR_N_GRAM
        = (d.MAX_PREV_WORD_COUNT_FOR_N_GRAM - 1) + 1 := by
      have := d.max_prev_word_count_pos
      omega
    rw [getPrevWordsTerminalPtNodePos_ofPrevWord,
      getTerminalPtNodePosOfWord_too_long _ _ _ _ _ _ _ hlong, Run.pure_bind,
      (getBigramsIteratorForPrediction_present _ charUtils policy).1,
      (getBigramsIteratorForPrediction_present _ charUtils policy).2,
      (ofPrevWord_first d _ _ _).1, (ofPrevWord_first d _ _ _).2.1,
      (ofPrevWord_first d _ _ _).2.2,
      getBigramListPositionForWordWithTryingLowerCaseSearch_too_long _ _ _ _ _ _ hlong]
    refine ⟨?_, rfl, rfl, rfl⟩
    conv_rhs => rw [hk, List.replicate_succ]
    rfl

/-- C9, on the stub dictionary: a previous word "The" stored with length 49 makes the context
invalid; both slots are `NOT_A_DICT_POS` and the iterator is bound to `NOT_A_DICT_POS`. -/
theorem invalid_context_resolves_to_nothing_witness :
    (PrevWordsInfo.ofPrevWord sampleDefines (some (wordView wordThe)) 49 false).isValid = false
      ∧ ((PrevWordsInfo.ofPrevWord sampleDefines (some (wordView wordThe)) 49
          false).getPrevWordsTerminalPtNodePos sampleCharUtils (some sampleDictionary)
          true).value = some [-2147483648, -2147483648]
      ∧ ((PrevWordsInfo.ofPrevWord sampleDefines (some (wordView wordThe)) 49
          false).getBigramsIteratorForPrediction sampleCharUtils (some sampleDictionary)).value
        = some ⟨⟨1⟩, -2147483648⟩ :=
  ⟨by decide,
    (invalid_context_resolves_to_nothing sampleDefines sampleCharUtils sampleDictionary
      (PrevWordsInfo.ofPrevWord sampleDefines (some (wordView wordThe)) 49 false) true
      (PrevWordsInfo.Constructed.ofPrevWord _ _ _) (by decide)).1,
    (invalid_context_resolves_to_nothing sampleDefines sampleCharUtils sampleDictionary
      (PrevWordsInfo.ofPrevWord sampleDefines (some (wordView wordThe)) 49 false) true
      (PrevWordsInfo.Constructed.ofPrevWord _ _ _) (by decide)).2.2.1⟩

/-- C10: for every present dictionary, `getBigramsIteratorForPrediction` on the context built
with no arguments binds the iterator to `NOT_A_DICT_POS`, and makes no dictionary lookup. -/
theorem getBigramsIteratorForPrediction_new (d : Defines) (charUtils : CharUtils)
    (policy : DictionaryStructureWithBufferPolicy) :
    ((PrevWordsInfo.new d).getBigramsIteratorForPrediction charUtils (some policy)).value
        = some ⟨policy.getBigramsStructurePolicy, d.NOT_A_DICT_POS⟩
      ∧ ((PrevWordsInfo.new d).getBigramsIteratorForPrediction charUtils (some policy)).events
        = [] := by
  rw [(getBigramsIteratorForPrediction_present _ charUtils policy).1,
    (getBigramsIteratorForPrediction_present _ charUtils policy).2]
  have hview : (PrevWordsInfo.new d).mPrevWordCodePoints d.first = none := rfl
  rw [hview, getBigramListPositionForWordWithTryingLowerCaseSearch_null_word]
  exact ⟨rfl, rfl⟩

/-! Further facts about one slot -/

theorem readCodePoints_length (src : Nat → Int) (n : Nat) :
    (readCodePoints src n).length = n := by
  induction n with
  | zero => rfl
  | succ n ih => simp [readCodePoints, ih]

theorem readCodePoints_getElem_of_lt (src : Nat → Int) (n i : Nat) (hi : i < n) :
    (readCodePoints src n)[i]? = some (src i) := by
  induction n with
  | zero => omega
  | succ n ih =>
    unfold readCodePoints
    by_cases h : i < n
    · rw [List.getElem?_append_left (by rw [readCodePoints_length]; exact h)]
      exact ih h
    · have hin : i = n := by omega
      subst hin
      rw [List.getElem?_append_right (by rw [readCodePoints_length])]
      simp [readCodePoints_length]

/-- The marker could not be attached: the slot resolves to the sentinel after the copy, without a
lookup. -/
theorem getTerminalPtNodePosOfWord_marker_failed (d : Defines) (charUtils : CharUtils)
    (policy : DictionaryStructureWithBufferPolicy) (word : Nat → Int) (n : Nat)
    (tryLowerCaseSearch : Bool) (hlen : n ≤ d.MAX_WORD_LENGTH)
    (hfail : (queriedWord d charUtils word n true).2 ≤ 0) :
    getTerminalPtNodePosOfWord d charUtils (some policy) (some word) n true tryLowerCaseSearch
      = ⟨[Event.memmove n], some d.NOT_A_DICT_POS⟩ := by
  have hle : ¬ ((n : Int) > (d.MAX_WORD_LENGTH : Int)) := by omega
  have hcopy : (0 : Int) ≤ (n : Int) ∧ (n : Int) ≤ (d.MAX_WORD_LENGTH : Int) := by omega
  unfold queriedWord at hfail
  unfold getTerminalPtNodePosOfWord memmove Run.bind
  simp only [hle, hcopy, if_false, if_true, and_self, Bool.true_and, hfail, decide_True]
  simp [Run.pure]

theorem getBigramListPositionForWordWithTryingLowerCaseSearch_marker_failed (d : Defines)
    (charUtils : CharUtils) (policy : DictionaryStructureWithBufferPolicy) (word : Nat → Int)
    (n : Nat) (hlen : n ≤ d.MAX_WORD_LENGTH)
    (hfail : (queriedWord d charUtils word n true).2 ≤ 0) :
    getBigramListPositionForWordWithTryingLowerCaseSearch d charUtils (some policy) (some word)
      n true = ⟨[Event.memmove n], some d.NOT_A_DICT_POS⟩ := by
  have hle : ¬ ((n : Int) > (d.MAX_WORD_LENGTH : Int)) := by omega
  have hcopy : (0 : Int) ≤ (n : Int) ∧ (n : Int) ≤ (d.MAX_WORD_LENGTH : Int) := by omega
  unfold queriedWord at hfail
  unfold getBigramListPositionForWordWithTryingLowerCaseSearch memmove Run.bind
  simp only [hle, hcopy, if_false, if_true, and_self, Bool.true_and, hfail, decide_True]
  simp [Run.pure]

theorem getBigramListPositionForWordWithTryingLowerCaseSearch_negative_count (d : Defines)
    (charUtils : CharUtils) (policy : DictionaryStructureWithBufferPolicy) (word : Nat → Int)
    (wordCodePointCount : Int) (isBeginningOfSentence : Bool) (hneg : wordCodePointCount < 0) :
    getBigramListPositionForWordWithTryingLowerCaseSearch d charUtils (some policy) (some word)
      wordCodePointCount isBeginningOfSentence = ⟨[Event.memmove wordCodePointCount], none⟩ := by
  have hle : ¬ (wordCodePointCount > (d.MAX_WORD_LENGTH : Int)) := by omega
  have hcopy : ¬ ((0 : Int) ≤ wordCodePointCount
      ∧ wordCodePointCount ≤ (d.MAX_WORD_LENGTH : Int)) := fun hc => by omega
  unfold getBigramListPositionForWordWithTryingLowerCaseSearch memmove Run.bind
  simp [hle, hcopy]

/-- The ways a slot can go through the guards of lines 95-107 (and 125-137): no view, too long,
a negative count, a marker that could not be attached, or all guards passed. -/
theorem slot_cases (d : Defines) (charUtils : CharUtils) (wordCodePoints : Option (Nat → Int))
    (wordCodePointCount : Int) (isBeginningOfSentence : Bool) :
    wordCodePoints = none
      ∨ wordCodePointCount > d.MAX_WORD_LENGTH
      ∨ (∃ word, wordCodePoints = some word ∧ wordCodePointCount < 0)
      ∨ (∃ word, ∃ n : Nat, wordCodePoints = some word ∧ wordCodePointCount = n
          ∧ n ≤ d.MAX_WORD_LENGTH ∧ isBeginningOfSentence = true
          ∧ (queriedWord d charUtils word n true).2 ≤ 0)
      ∨ (∃ word, ∃ n : Nat, wordCodePoints = some word ∧ wordCodePointCount = n
          ∧ n ≤ d.MAX_WORD_LENGTH
          ∧ (isBeginningOfSentence = true →
            0 < (queriedWord d charUtils word n isBeginningOfSentence).2)) := by
  cases wordCodePoints with
  | none => exact Or.inl rfl
  | some word =>
    by_cases hlong : wordCodePointCount > d.MAX_WORD_LENGTH
    · exact Or.inr (Or.inl hlong)
    · by_cases hneg : wordCodePointCount < 0
      · exact Or.inr (Or.inr (Or.inl ⟨word, rfl, hneg⟩))
      · obtain ⟨n, rfl⟩ := Int.eq_ofNat_of_zero_le (by omega : 0 ≤ wordCodePointCount)
        have hlen : n ≤ d.MAX_WORD_LENGTH := by omega
        cases hb : isBeginningOfSentence with
        | false =>
          exact Or.inr (Or.inr (Or.inr (Or.inr ⟨word, n, rfl, rfl, hlen,
            fun h => absurd h (by decide)⟩)))
        | true =>
          by_cases hq : (queriedWord d charUtils word n true).2 ≤ 0
          · exact Or.inr (Or.inr (Or.inr (Or.inl ⟨word, n, rfl, rfl, hlen, rfl, hq⟩)))
          · exact Or.inr (Or.inr (Or.inr (Or.inr ⟨word, n, rfl, rfl, hlen,
              fun _ => by omega⟩)))

/-- In the value of the loop, index 0 holds what slot 1 resolved to. -/
theorem getPrevWordsTerminalPtNodePos_head {d : Defines} (self : PrevWordsInfo d)
    (charUtils : CharUtils) (dictStructurePolicy : Option DictionaryStructureWithBufferPolicy)
    (tryLowerCaseSearch : Bool) (out : List Int)
    (h : (self.getPrevWordsTerminalPtNodePos charUtils dictStructurePolicy
      tryLowerCaseSearch).value = some out) :
    (getTerminalPtNodePosOfWord d charUtils dictStructurePolicy
        (self.mPrevWordCodePoints d.first) (self.mPrevWordCodePointCount d.first)
        (self.mIsBeginningOfSentence d.first) tryLowerCaseSearch).value = out[0]? := by
  obtain ⟨rest, hrange, _, _⟩ := finRange_first d
  unfold PrevWordsInfo.getPrevWordsTerminalPtNodePos at h
  rw [hrange] at h
  unfold PrevWordsInfo.getPrevWordsTerminalPtNodePosFrom at h
  rw [Run.bind_value] at h
  cases h0 : (getTerminalPtNodePosOfWord d charUtils dictStructurePolicy
      (self.mPrevWordCodePoints d.first) (self.mPrevWordCodePointCount d.first)
      (self.mIsBeginningOfSentence d.first) tryLowerCaseSearch).value with
  | none => simp [h0] at h
  | some pos =>
    rw [h0] at h
    simp only [Option.some_bind, Run.bind_value] at h
    cases h1 : (self.getPrevWordsTerminalPtNodePosFrom charUtils dictStructurePolicy
        tryLowerCaseSearch rest).value with
    | none => simp [h1] at h
    | some written =>
      rw [h1] at h
      simp only [Option.some_bind, Run.pure, Option.some.injEq] at h
      subst h
      simp

theorem clearFrom_fields {d : Defines} (self : PrevWordsInfo d)
    (slots : List (Fin d.MAX_PREV_WORD_COUNT_FOR_N_GRAM))
    (i : Fin d.MAX_PREV_WORD_COUNT_FOR_N_GRAM) :
    (self.clearFrom slots).mPrevWordCodePoints i
        = (if i ∈ slots then none else self.mPrevWordCodePoints i)
      ∧ (self.clearFrom slots).mPrevWordCodePointCount i
        = (if i ∈ slots then 0 else self.mPrevWordCodePointCount i)
      ∧ (self.clearFrom slots).mIsBeginningOfSentence i
        = (if i ∈ slots then false else self.mIsBeginningOfSentence i) := by
  induction slots generalizing self with
  | nil => simp [PrevWordsInfo.clearFrom]
  | cons j rest ih =>
    unfold PrevWordsInfo.clearFrom
    obtain ⟨h1, h2, h3⟩ := ih
      { mPrevWordCodePoints := Function.update self.mPrevWordCodePoints j none
        mPrevWordCodePointCount := Function.update self.mPrevWordCodePointCount j 0
        mIsBeginningOfSentence := Function.update self.mIsBeginningOfSentence j false }
    rw [h1, h2, h3]
    by_cases hrest : i ∈ rest
    · simp [hrest]
    · by_cases hij : i = j
      · subst hij
        simp [hrest]
      · simp [hrest, hij, Function.update_noteq hij]

/-- The loop of `clear()` leaves the members as `PrevWordsInfo.clear` says, whatever they held. -/
theorem clearFrom_finRange {d : Defines} (self : PrevWordsInfo d) :
    self.clearFrom (List.finRange d.MAX_PREV_WORD_COUNT_FOR_N_GRAM) = PrevWordsInfo.clear d := by
  have h := fun i => clearFrom_fields self (List.finRange d.MAX_PREV_WORD_COUNT_FOR_N_GRAM) i
  cases hc : self.clearFrom (List.finRange d.MAX_PREV_WORD_COUNT_FOR_N_GRAM) with
  | mk a b c =>
    rw [hc] at h
    unfold PrevWordsInfo.clear
    congr 1
    · funext i
      simpa [List.mem_finRange] using (h i).1
    · funext i
      simpa [List.mem_finRange] using (h i).2.1
    · funext i
      simpa [List.mem_finRange] using (h i).2.2

/-- C12: the slot accessors give the absent result (null view, length 0) for every integer `n`
with `n < 1` or `n > MAX_PREV_WORD_COUNT_FOR_N_GRAM`; on a context built from one previous word,
`n = 1` gives the very view and length that were passed, and every `n` from 2 to
`MAX_PREV_WORD_COUNT_FOR_N_GRAM` gives the absent result. -/
theorem getNthPrevWord_accessors (d : Defines) :
    (∀ (self : PrevWordsInfo d) (n : Int), n < 1 ∨ n > d.MAX_PREV_WORD_COUNT_FOR_N_GRAM →
        self.getNthPrevWordCodePoints n = none ∧ self.getNthPrevWordCodePointCount n = 0)
      ∧ (∀ (prevWordCodePoints : Option (Nat → Int)) (prevWordCodePointCount : Int)
          (isBeginningOfSentence : Bool),
          (PrevWordsInfo.ofPrevWord d prevWordCodePoints prevWordCodePointCount
              isBeginningOfSentence).getNthPrevWordCodePoints 1 = prevWordCodePoints
            ∧ (PrevWordsInfo.ofPrevWord d prevWordCodePoints prevWordCodePointCount
              isBeginningOfSentence).getNthPrevWordCodePointCount 1 = prevWordCodePointCount)
      ∧ (∀ (prevWordCodePoints : Option (Nat → Int)) (prevWordCodePointCount : Int)
          (isBeginningOfSentence : Bool) (n : Int),
          2 ≤ n → n ≤ d.MAX_PREV_WORD_COUNT_FOR_N_GRAM →
          (PrevWordsInfo.ofPrevWord d prevWordCodePoints prevWordCodePointCount
              isBeginningOfSentence).getNthPrevWordCodePoints n = none
            ∧ (PrevWordsInfo.ofPrevWord d prevWordCodePoints prevWordCodePointCount
              isBeginningOfSentence).getNthPrevWordCodePointCount n = 0) := by
  have hk := d.max_prev_word_count_pos
  refine ⟨?_, ?_, ?_⟩
  · intro self n hn
    have hn' : n ≤ 0 ∨ n > d.MAX_PREV_WORD_COUNT_FOR_N_GRAM := by omega
    unfold PrevWordsInfo.getNthPrevWordCodePoints PrevWordsInfo.getNthPrevWordCodePointCount
    simp [hn']
  · intro p c bos
    have h1 : ¬ ((1 : Int) ≤ 0 ∨ (1 : Int) > d.MAX_PREV_WORD_COUNT_FOR_N_GRAM) := by omega
    have hidx : (⟨((1 : Int) - 1).toNat, by omega⟩ : Fin d.MAX_PREV_WORD_COUNT_FOR_N_GRAM)
        = d.first := rfl
    unfold PrevWordsInfo.getNthPrevWordCodePoints PrevWordsInfo.getNthPrevWordCodePointCount
    rw [dif_neg h1, dif_neg h1, hidx]
    exact ⟨(ofPrevWord_first d p c bos).1, (ofPrevWord_first d p c bos).2.1⟩
  · intro p c bos n hn2 hnK
    have hn : ¬ (n ≤ 0 ∨ n > d.MAX_PREV_WORD_COUNT_FOR_N_GRAM) := by omega
    have hidx : (⟨(n - 1).toNat, by omega⟩ : Fin d.MAX_PREV_WORD_COUNT_FOR_N_GRAM)
        ≠ d.first := by
      intro h
      have := congrArg Fin.val h
      simp only [Defines.first] at this
      omega
    unfold PrevWordsInfo.getNthPrevWordCodePoints PrevWordsInfo.getNthPrevWordCodePointCount
    rw [dif_neg hn, dif_neg hn]
    exact ⟨(ofPrevWord_other d p c bos _ hidx).1, (ofPrevWord_other d p c bos _ hidx).2.1⟩

/-- C12, on the sample constants (two slots): for the previous word "The" of length 3, `n = 1`
gives the view and 3, and `n = 0`, `n = 3` and `n = 2` give the absent result. -/
theorem getNthPrevWord_accessors_witness :
    ((PrevWordsInfo.ofPrevWord sampleDefines (some (wordView wordThe)) 3
          false).getNthPrevWordCodePoints 1 = some (wordView wordThe)
        ∧ (PrevWordsInfo.ofPrevWord sampleDefines (some (wordView wordThe)) 3
          false).getNthPrevWordCodePointCount 1 = 3)
      ∧ ((PrevWordsInfo.ofPrevWord sampleDefines (some (wordView wordThe)) 3
          false).getNthPrevWordCodePoints 0 = none
        ∧ (PrevWordsInfo.ofPrevWord sampleDefines (some (wordView wordThe)) 3
          false).getNthPrevWordCodePointCount 0 = 0)
      ∧ ((PrevWordsInfo.ofPrevWord sampleDefines (some (wordView wordThe)) 3
          false).getNthPrevWordCodePoints 3 = none
        ∧ (PrevWordsInfo.ofPrevWord sampleDefines (some (wordView wordThe)) 3
          false).getNthPrevWordCodePointCount 3 = 0)
      ∧ ((PrevWordsInfo.ofPrevWord sampleDefines (some (wordView wordThe)) 3
          false).getNthPrevWordCodePoints 2 = none
        ∧ (PrevWordsInfo.ofPrevWord sampleDefines (some (wordView wordThe)) 3
          false).getNthPrevWordCodePointCount 2 = 0) :=
  ⟨(getNthPrevWord_accessors sampleDefines).2.1 (some (wordView wordThe)) 3 false,
    (getNthPrevWord_accessors sampleDefines).1 _ 0 (by decide),
    (getNthPrevWord_accessors sampleDefines).1 _ 3 (by decide),
    (getNthPrevWord_accessors sampleDefines).2.2 (some (wordView wordThe)) 3 false 2
      (by decide) (by decide)⟩

/-- C13: the constructor with no arguments runs `clear()`, whose loop resets every slot whatever
the members held; the context it gives has no word view, length 0 and begin-of-sentence false in
all `MAX_PREV_WORD_COUNT_FOR_N_GRAM` slots, and `isValid()` is true for it. -/
theorem new_context_is_empty (d : Defines) :
    (∀ uninitialised : PrevWordsInfo d,
        uninitialised.clearFrom (List.finRange d.MAX_PREV_WORD_COUNT_FOR_N_GRAM)
          = PrevWordsInfo.new d)
      ∧ (∀ i, (PrevWordsInfo.new d).mPrevWordCodePoints i = none
          ∧ (PrevWordsInfo.new d).mPrevWordCodePointCount i = 0
          ∧ (PrevWordsInfo.new d).mIsBeginningOfSentence i = false)
      ∧ (PrevWordsInfo.new d).isValid = true :=
  ⟨fun uninitialised => clearFrom_finRange uninitialised, fun _ => ⟨rfl, rfl, rfl⟩,
    isValid_new d⟩

/-- C14: with a null dictionary handle `getPrevWordsTerminalPtNodePos` writes `NOT_A_DICT_POS`
to all `MAX_PREV_WORD_COUNT_FOR_N_GRAM` slots, for every context (whatever its members hold) and
either flag value; the run has a value and records no event. -/
theorem getPrevWordsTerminalPtNodePos_null_dictionary (d : Defines) (charUtils : CharUtils)
    (self : PrevWordsInfo d) (tryLowerCaseSearch : Bool) :
    (self.getPrevWordsTerminalPtNodePos charUtils none tryLowerCaseSearch).value
        = some (List.replicate d.MAX_PREV_WORD_COUNT_FOR_N_GRAM d.NOT_A_DICT_POS)
      ∧ (self.getPrevWordsTerminalPtNodePos charUtils none tryLowerCaseSearch).events = [] := by
  unfold PrevWordsInfo.getPrevWordsTerminalPtNodePos
  rw [getPrevWordsTerminalPtNodePosFrom_null_dictionary, List.length_finRange]
  exact ⟨rfl, rfl⟩

/-- With a count that is a length, the copy made for a slot stays within the scratch buffer. -/
theorem getTerminalPtNodePosOfWord_memmoveCounts_of_length (d : Defines) (charUtils : CharUtils)
    (dictStructurePolicy : Option DictionaryStructureWithBufferPolicy)
    (wordCodePoints : Option (Nat → Int)) (n : Nat)
    (isBeginningOfSentence tryLowerCaseSearch : Bool) :
    ∀ c ∈ memmoveCounts (getTerminalPtNodePosOfWord d charUtils dictStructurePolicy
      wordCodePoints n isBeginningOfSentence tryLowerCaseSearch).events,
      0 ≤ c ∧ c ≤ d.MAX_WORD_LENGTH := by
  cases dictStructurePolicy with
  | none =>
    rw [getTerminalPtNodePosOfWord_null_dictionary]
    simp [Run.pure, memmoveCounts]
  | some policy =>
    rcases slot_cases d charUtils wordCodePoints n isBeginningOfSentence with
      h | h | ⟨word, _, hneg⟩ | ⟨word, m, hw, hm, hlen, hb, hq⟩ | ⟨word, m, hw, hm, hlen, hmark⟩
    · subst h
      rw [getTerminalPtNodePosOfWord_null_word]
      simp [Run.pure, memmoveCounts]
    · rw [getTerminalPtNodePosOfWord_too_long _ _ _ _ _ _ _ h]
      simp [Run.pure, memmoveCounts]
    · omega
    · have hnm : n = m := by omega
      subst hnm
      subst hw
      subst hb
      rw [getTerminalPtNodePosOfWord_marker_failed _ _ _ _ _ _ hlen hq]
      simp only [memmoveCounts, List.mem_singleton, forall_eq]
      omega
    · have hnm : n = m := by omega
      subst hnm
      subst hw
      rw [getTerminalPtNodePosOfWord_guarded _ _ _ _ _ _ _ hlen hmark]
      intro c hc
      have hc' : c = (n : Int) := by
        by_cases hr : policy.getTerminalPtNodePositionOfWord
            (queriedWord d charUtils word n isBeginningOfSentence).1
            (queriedWord d charUtils word n isBeginningOfSentence).2 false = d.NOT_A_DICT_POS
        · cases tryLowerCaseSearch <;> simpa [hr, memmoveCounts] using hc
        · cases tryLowerCaseSearch <;> simpa [hr, memmoveCounts] using hc
      omega

/-- C15, at the failing input: a context built from one previous word with the stored count -1
has `isValid()` true and passes the guards of lines 95 and 125, so that both
`getPrevWordsTerminalPtNodePos` and `getBigramsIteratorForPrediction` reach the `memmove` with
the count -1; its length `sizeof(int) * -1` is, as a `size_t`, 2^64 - 4 bytes (2^32 - 4 with a
32-bit `size_t`), far above the 4 * 48 bytes of the scratch buffer, and the run has no value. -/
theorem memmove_negative_count_overruns :
    (PrevWordsInfo.ofPrevWord sampleDefines (some (wordView wordThe)) (-1) false).isValid = true
      ∧ memmoveCounts ((PrevWordsInfo.ofPrevWord sampleDefines (some (wordView wordThe)) (-1)
          false).getPrevWordsTerminalPtNodePos sampleCharUtils (some sampleDictionary)
          false).events = [-1]
      ∧ ((PrevWordsInfo.ofPrevWord sampleDefines (some (wordView wordThe)) (-1)
          false).getPrevWordsTerminalPtNodePos sampleCharUtils (some sampleDictionary)
          false).value = none
      ∧ memmoveCounts ((PrevWordsInfo.ofPrevWord sampleDefines (some (wordView wordThe)) (-1)
          false).getBigramsIteratorForPrediction sampleCharUtils
          (some sampleDictionary)).events = [-1]
      ∧ ((PrevWordsInfo.ofPrevWord sampleDefines (some (wordView wordThe)) (-1)
          false).getBigramsIteratorForPrediction sampleCharUtils
          (some sampleDictionary)).value = none
      ∧ memmoveByteCount 64 (-1) = 18446744073709551612
      ∧ memmoveByteCount 32 (-1) = 4294967292
      ∧ 4 * (sampleDefines.MAX_WORD_LENGTH : Int) < memmoveByteCount 32 (-1) := by
  decide

/-- C16 as stated fails: in a stub dictionary where the empty word is a terminal node at 5 with
its bigram list at 50, a context whose previous word is empty and does not begin a sentence has
slot 1 of `getPrevWordsTerminalPtNodePos` equal to 5, yet `getBigramsIteratorForPrediction`
binds the iterator to `NOT_A_DICT_POS`, not to 50: line 154 rejects a count of 0. -/
theorem getBigramsIteratorForPrediction_empty_word_differs :
    ((PrevWordsInfo.ofPrevWord sampleDefines (some (wordView [])) 0
          false).getPrevWordsTerminalPtNodePos sampleCharUtils (some emptyWordDictionary)
          false).value = some [5, sampleDefines.NOT_A_DICT_POS]
      ∧ (5 : Int) ≠ sampleDefines.NOT_A_DICT_POS
      ∧ emptyWordDictionary.getBigramsPositionOfPtNode 5 = 50
      ∧ (50 : Int) ≠ sampleDefines.NOT_A_DICT_POS
      ∧ ((PrevWordsInfo.ofPrevWord sampleDefines (some (wordView [])) 0
          false).getBigramsIteratorForPrediction sampleCharUtils
          (some emptyWordDictionary)).value
        = some ⟨emptyWordDictionary.getBigramsStructurePolicy, sampleDefines.NOT_A_DICT_POS⟩ := by
  decide

/-- C16, amended: for every context and every present dictionary, if slot 1 of
`getPrevWordsTerminalPtNodePos` with `tryLowerCaseSearch = false` is a position
`p ≠ NOT_A_DICT_POS` whose bigram-list position is not `NOT_A_DICT_POS`, and the word of slot 1
is not empty or begins a sentence, then `getBigramsIteratorForPrediction` binds the iterator to
the bigram-list position of `p`. -/
theorem getBigramsIteratorForPrediction_same_resolution (d : Defines) (charUtils : CharUtils)
    (policy : DictionaryStructureWithBufferPolicy) (self : PrevWordsInfo d) (out : List Int)
    (p : Int)
    (hrun : (self.getPrevWordsTerminalPtNodePos charUtils (some policy) false).value = some out)
    (hslot : out[0]? = some p) (hfound : p ≠ d.NOT_A_DICT_POS)
    (hbigrams : policy.getBigramsPositionOfPtNode p ≠ d.NOT_A_DICT_POS)
    (hword : self.mPrevWordCodePointCount d.first ≠ 0
      ∨ self.mIsBeginningOfSentence d.first = true) :
    (self.getBigramsIteratorForPrediction charUtils (some policy)).value
      = some ⟨policy.getBigramsStructurePolicy, policy.getBigramsPositionOfPtNode p⟩ := by
  have hhead := getPrevWordsTerminalPtNodePos_head self charUtils (some policy) false out hrun
  rw [hslot] at hhead
  rw [(getBigramsIteratorForPrediction_present self charUtils policy).2]
  rcases slot_cases d charUtils (self.mPrevWordCodePoints d.first)
      (self.mPrevWordCodePointCount d.first) (self.mIsBeginningOfSentence d.first) with
    h | h | ⟨word, hw, hneg⟩ | ⟨word, n, hw, hn, hlen, hb, hq⟩ | ⟨word, n, hw, hn, hlen, hmark⟩
  · rw [h, getTerminalPtNodePosOfWord_null_word] at hhead
    exact absurd (Option.some.inj hhead).symm hfound
  · rw [getTerminalPtNodePosOfWord_too_long _ _ _ _ _ _ _ h] at hhead
    exact absurd (Option.some.inj hhead).symm hfound
  · rw [hw, getTerminalPtNodePosOfWord_negative_count _ _ _ _ _ _ _ hneg] at hhead
    exact absurd hhead (by simp)
  · rw [hw, hn, hb, getTerminalPtNodePosOfWord_marker_failed _ _ _ _ _ _ hlen hq] at hhead
    exact absurd (Option.some.inj hhead).symm hfound
  · rw [hw, hn] at hhead ⊢
    rw [getTerminalPtNodePosOfWord_guarded _ _ _ _ _ _ _ hlen hmark] at hhead
    simp only [Bool.false_eq_true, and_false, if_false, Option.some.injEq] at hhead
    have hcount : ¬ (queriedWord d charUtils word n (self.mIsBeginningOfSentence d.first)).2
        ≤ 0 := by
      cases hb : self.mIsBeginningOfSentence d.first with
      | true =>
        have := hmark hb
        rw [hb] at this
        omega
      | false =>
        have hn0 : self.mPrevWordCodePointCount d.first ≠ 0 := by
          cases hword with
          | inl h => exact h
          | inr h => rw [hb] at h; exact absurd h (by decide)
        simp only [queriedWord, attachIfBeginningOfSentence, Bool.false_eq_true, if_false]
        omega
    rw [getBigramListPositionForWordWithTryingLowerCaseSearch_guarded _ _ _ _ _ _ hlen hmark,
      Run.bind_value, getBigramListPositionForWord_value, if_neg hcount, hhead,
      if_neg (Ne.symm hfound)]
    simp only [Option.some_bind, if_neg (Ne.symm hbigrams), Run.pure, Option.map_some']

/-- C16 amended, on the stub dictionary: for the previous word "the" slot 1 is 7, whose bigram
list is at 21, and the iterator is bound to 21. -/
theorem getBigramsIteratorForPrediction_same_resolution_witness :
    ((PrevWordsInfo.ofPrevWord sampleDefines (some (wordView [116, 104, 101])) 3
          false).getPrevWordsTerminalPtNodePos sampleCharUtils (some sampleDictionary)
          false).value = some [7, -2147483648]
      ∧ ((PrevWordsInfo.ofPrevWord sampleDefines (some (wordView [116, 104, 101])) 3
          false).getBigramsIteratorForPrediction sampleCharUtils (some sampleDictionary)).value
        = some ⟨⟨1⟩, 21⟩ :=
  ⟨by decide,
    (getBigramsIteratorForPrediction_same_resolution sampleDefines sampleCharUtils
      sampleDictionary
      (PrevWordsInfo.ofPrevWord sampleDefines (some (wordView [116, 104, 101])) 3 false)
      [7, -2147483648] 7 (by decide) (by decide) (by decide) (by decide)
      (by decide)).trans (by decide)⟩

theorem queriedWord_not_beginning (d : Defines) (charUtils : CharUtils) (word : Nat → Int)
    (n : Nat) : queriedWord d charUtils word n false = (readCodePoints word n, (n : Int)) := by
  simp [queriedWord, attachIfBeginningOfSentence]

theorem queriedWord_spec_beginning (d : Defines) (marker : Int) (word : Nat → Int) (n : Nat)
    (hmark : 0 < ((specCharUtils marker).attachBeginningOfSentenceMarker (readCodePoints word n)
      n d.MAX_WORD_LENGTH).2) :
    queriedWord d (specCharUtils marker) word n true
      = (marker :: readCodePoints word n, (n : Int) + 1) := by
  simp only [specCharUtils, attachBeginningOfSentenceMarker] at hmark
  by_cases hfull : (n : Int) + 1 > (d.MAX_WORD_LENGTH : Int)
  · rw [if_pos hfull] at hmark
    simp at hmark
  · simp [queriedWord, attachIfBeginningOfSentence, specCharUtils,
      attachBeginningOfSentenceMarker, hfull]

/-- The terminal lookups of a slot that passed the guards, in terms of the word handed to the
dictionary. -/
theorem terminalLookups_guarded (d : Defines) (charUtils : CharUtils)
    (policy : DictionaryStructureWithBufferPolicy) (word : Nat → Int) (n : Nat)
    (isBeginningOfSentence tryLowerCaseSearch : Bool) (hlen : n ≤ d.MAX_WORD_LENGTH)
    (hmark : isBeginningOfSentence = true →
      0 < (queriedWord d charUtils word n isBeginningOfSentence).2) :
    terminalLookups (getTerminalPtNodePosOfWord d charUtils (some policy) (some word) n
        isBeginningOfSentence tryLowerCaseSearch).events
      = ((queriedWord d charUtils word n isBeginningOfSentence).1,
          (queriedWord d charUtils word n isBeginningOfSentence).2, false)
        :: (if policy.getTerminalPtNodePositionOfWord
              (queriedWord d charUtils word n isBeginningOfSentence).1
              (queriedWord d charUtils word n isBeginningOfSentence).2 false
              = d.NOT_A_DICT_POS ∧ tryLowerCaseSearch = true then
            [((queriedWord d charUtils word n isBeginningOfSentence).1,
              (queriedWord d charUtils word n isBeginningOfSentence).2, true)]
          else []) := by
  rw [getTerminalPtNodePosOfWord_guarded d charUtils policy word n _ _ hlen hmark]
  by_cases hr : policy.getTerminalPtNodePositionOfWord
      (queriedWord d charUtils word n isBeginningOfSentence).1
      (queriedWord d charUtils word n isBeginningOfSentence).2 false = d.NOT_A_DICT_POS
  · cases tryLowerCaseSearch <;> simp [hr, terminalLookups]
  · cases tryLowerCaseSearch <;> simp [hr, terminalLookups]

/-- C17: with the marker injector as the spec describes it, for a slot that passes the guards
(dictionary and view present, length `n`, a number of code points, at most `MAX_WORD_LENGTH`):
the copy is the first `n` code points of the view, unchanged; when the word does not begin a
sentence the terminal-node lookups receive that copy with count `n`; when it does and the marker
was attached, they receive the marker followed by the copy, with count `n + 1`; the lowercase
retry, when made, receives the same sequence and count as the case-sensitive lookup. -/
theorem getTerminalPtNodePosOfWord_queried_code_points (d : Defines) (marker : Int)
    (policy : DictionaryStructureWithBufferPolicy) (word : Nat → Int) (n : Nat)
    (tryLowerCaseSearch : Bool) (hlen : n ≤ d.MAX_WORD_LENGTH) :
    ((readCodePoints word n).length = n
        ∧ ∀ i : Nat, i < n → (readCodePoints word n)[i]? = some (word i))
      ∧ terminalLookups (getTerminalPtNodePosOfWord d (specCharUtils marker) (some policy)
          (some word) n false tryLowerCaseSearch).events
        = (readCodePoints word n, (n : Int), false)
          :: (if policy.getTerminalPtNodePositionOfWord (readCodePoints word n) n false
                = d.NOT_A_DICT_POS ∧ tryLowerCaseSearch = true then
              [(readCodePoints word n, (n : Int), true)]
            else [])
      ∧ (0 < ((specCharUtils marker).attachBeginningOfSentenceMarker (readCodePoints word n)
            n d.MAX_WORD_LENGTH).2 →
          terminalLookups (getTerminalPtNodePosOfWord d (specCharUtils marker) (some policy)
              (some word) n true tryLowerCaseSearch).events
            = (marker :: readCodePoints word n, (n : Int) + 1, false)
              :: (if policy.getTerminalPtNodePositionOfWord (marker :: readCodePoints word n)
                    ((n : Int) + 1) false = d.NOT_A_DICT_POS ∧ tryLowerCaseSearch = true then
                  [(marker :: readCodePoints word n, (n : Int) + 1, true)]
                else [])) := by
  refine ⟨⟨readCodePoints_length word n, fun i hi => readCodePoints_getElem_of_lt word n i hi⟩, ?_, ?_⟩
  · rw [terminalLookups_guarded d (specCharUtils marker) policy word n false tryLowerCaseSearch
      hlen (fun h => absurd h (by decide)), queriedWord_not_beginning]
  · intro hmark
    have hq := queriedWord_spec_beginning d marker word n hmark
    rw [terminalLookups_guarded d (specCharUtils marker) policy word n true tryLowerCaseSearch
      hlen (fun _ => by rw [hq]; omega), hq]

/-- C17, on the stub dictionary: for the previous word "The" at the beginning of a sentence the
two lookups receive the marker followed by "The", with count 4. -/
theorem getTerminalPtNodePosOfWord_queried_code_points_witness :
    terminalLookups (getTerminalPtNodePosOfWord sampleDefines (specCharUtils 1114112)
        (some sampleDictionary) (some (wordView wordThe)) (3 : Nat) true true).events
      = [([1114112, 84, 104, 101], 4, false), ([1114112, 84, 104, 101], 4, true)] :=
  ((getTerminalPtNodePosOfWord_queried_code_points sampleDefines 1114112 sampleDictionary
    (wordView wordThe) 3 true (by decide)).2.2 (by decide)).trans (by decide)

/-- The position found by `getBigramListPositionForWordWithTryingLowerCaseSearch` once the guards
are passed, in closed form. -/
theorem getBigramListPositionForWordWithTryingLowerCaseSearch_guarded_value (d : Defines)
    (charUtils : CharUtils) (policy : DictionaryStructureWithBufferPolicy) (word : Nat → Int)
    (n : Nat) (isBeginningOfSentence : Bool) (hlen : n ≤ d.MAX_WORD_LENGTH)
    (hmark : isBeginningOfSentence = true →
      0 < (queriedWord d charUtils word n isBeginningOfSentence).2) :
    (getBigramListPositionForWordWithTryingLowerCaseSearch d charUtils (some policy) (some word)
        n isBeginningOfSentence).value
      = some (if (queriedWord d charUtils word n isBeginningOfSentence).2 ≤ 0 then
            d.NOT_A_DICT_POS
          else if d.NOT_A_DICT_POS = policy.getTerminalPtNodePositionOfWord
              (queriedWord d charUtils word n isBeginningOfSentence).1
              (queriedWord d charUtils word n isBeginningOfSentence).2 false
            ∨ d.NOT_A_DICT_POS = policy.getBigramsPositionOfPtNode
              (policy.getTerminalPtNodePositionOfWord
                (queriedWord d charUtils word n isBeginningOfSentence).1
                (queriedWord d charUtils word n isBeginningOfSentence).2 false) then
            (if d.NOT_A_DICT_POS = policy.getTerminalPtNodePositionOfWord
                (queriedWord d charUtils word n isBeginningOfSentence).1
                (queriedWord d charUtils word n isBeginningOfSentence).2 true then
              d.NOT_A_DICT_POS
            else
              policy.getBigramsPositionOfPtNode
                (policy.getTerminalPtNodePositionOfWord
                  (queriedWord d charUtils word n isBeginningOfSentence).1
                  (queriedWord d charUtils word n isBeginningOfSentence).2 true))
          else
            policy.getBigramsPositionOfPtNode
              (policy.getTerminalPtNodePositionOfWord
                (queriedWord d charUtils word n isBeginningOfSentence).1
                (queriedWord d charUtils word n isBeginningOfSentence).2 false)) := by
  rw [getBigramListPositionForWordWithTryingLowerCaseSearch_guarded _ _ _ _ _ _ hlen hmark,
    Run.bind_value, getBigramListPositionForWord_value]
  by_cases hcount : (queriedWord d charUtils word n isBeginningOfSentence).2 ≤ 0
  · simp [hcount, getBigramListPositionForWord_value]
  · by_cases hf : d.NOT_A_DICT_POS = policy.getTerminalPtNodePositionOfWord
        (queriedWord d charUtils word n isBeginningOfSentence).1
        (queriedWord d charUtils word n isBeginningOfSentence).2 false
    · simp only [hcount, if_false, if_pos hf, Option.some_bind, if_true,
        getBigramListPositionForWord_value]
      rw [if_pos (Or.inl hf)]
    · by_cases hb : d.NOT_A_DICT_POS = policy.getBigramsPositionOfPtNode
          (policy.getTerminalPtNodePositionOfWord
            (queriedWord d charUtils word n isBeginningOfSentence).1
            (queriedWord d charUtils word n isBeginningOfSentence).2 false)
      · simp only [hcount, if_false, if_neg hf, Option.some_bind, if_pos hb,
          getBigramListPositionForWord_value, if_true]
        rw [if_pos (Or.inr hb)]
      · simp only [hcount, if_false, if_neg hf, Option.some_bind, if_neg hb, Run.pure]
        rw [if_neg (fun h => h.elim hf hb)]

/-- C18: for every constructed context and every present dictionary, if
`getBigramsIteratorForPrediction` binds the iterator to a position other than `NOT_A_DICT_POS`,
then slot 1 of `getPrevWordsTerminalPtNodePos` with `tryLowerCaseSearch = true` is not
`NOT_A_DICT_POS`, and the iterator's position is the bigram-list position of a terminal node `t`
that is the case-sensitive or the lowercase-forced terminal-node position of the word handed to
the dictionary. -/
theorem getBigramsIteratorForPrediction_anchor_resolvable (d : Defines) (charUtils : CharUtils)
    (policy : DictionaryStructureWithBufferPolicy) (self : PrevWordsInfo d)
    (iterator : BinaryDictionaryBigramsIterator) (hself : PrevWordsInfo.Constructed d self)
    (hrun : (self.getBigramsIteratorForPrediction charUtils (some policy)).value
      = some iterator)
    (hanchor : iterator.mPos ≠ d.NOT_A_DICT_POS) :
    ∃ out slot, (self.getPrevWordsTerminalPtNodePos charUtils (some policy) true).value
        = some out
      ∧ out[0]? = some slot ∧ slot ≠ d.NOT_A_DICT_POS
      ∧ ∃ word t, self.mPrevWordCodePoints d.first = some word
        ∧ t ≠ d.NOT_A_DICT_POS
        ∧ (t = policy.getTerminalPtNodePositionOfWord
              (queriedWord d charUtils word (self.mPrevWordCodePointCount d.first)
                (self.mIsBeginningOfSentence d.first)).1
              (queriedWord d charUtils word (self.mPrevWordCodePointCount d.first)
                (self.mIsBeginningOfSentence d.first)).2 false
          ∨ t = policy.getTerminalPtNodePositionOfWord
              (queriedWord d charUtils word (self.mPrevWordCodePointCount d.first)
                (self.mIsBeginningOfSentence d.first)).1
              (queriedWord d charUtils word (self.mPrevWordCodePointCount d.first)
                (self.mIsBeginningOfSentence d.first)).2 true)
        ∧ iterator.mPos = policy.getBigramsPositionOfPtNode t := by
  rw [(getBigramsIteratorForPrediction_present self charUtils policy).2] at hrun
  cases hself with
  | new =>
    have hview : (PrevWordsInfo.new d).mPrevWordCodePoints d.first = none := rfl
    rw [hview, getBigramListPositionForWordWithTryingLowerCaseSearch_null_word] at hrun
    simp only [Run.pure, Option.map_some', Option.some.injEq] at hrun
    subst hrun
    exact absurd rfl hanchor
  | ofPrevWord prevWordCodePoints prevWordCodePointCount isBeginningOfSentence =>
    rw [(ofPrevWord_first d _ _ _).1, (ofPrevWord_first d _ _ _).2.1,
      (ofPrevWord_first d _ _ _).2.2] at hrun ⊢
    rw [getPrevWordsTerminalPtNodePos_ofPrevWord, Run.bind_value]
    rcases slot_cases d charUtils prevWordCodePoints prevWordCodePointCount
        isBeginningOfSentence with
      h | h | ⟨word, hw, hneg⟩ | ⟨word, n, hw, hn, hlen, hb, hq⟩ | ⟨word, n, hw, hn, hlen, hmark⟩
    · rw [h, getBigramListPositionForWordWithTryingLowerCaseSearch_null_word] at hrun
      simp only [Run.pure, Option.map_some', Option.some.injEq] at hrun
      subst hrun
      exact absurd rfl hanchor
    · rw [getBigramListPositionForWordWithTryingLowerCaseSearch_too_long _ _ _ _ _ _ h] at hrun
      simp only [Run.pure, Option.map_some', Option.some.injEq] at hrun
      subst hrun
      exact absurd rfl hanchor
    · rw [hw, getBigramListPositionForWordWithTryingLowerCaseSearch_negative_count _ _ _ _ _ _
        hneg] at hrun
      simp at hrun
    · rw [hw, hn, hb, getBigramListPositionForWordWithTryingLowerCaseSearch_marker_failed _ _ _ _
        _ hlen hq] at hrun
      simp only [Option.map_some', Option.some.injEq] at hrun
      subst hrun
      exact absurd rfl hanchor
    · subst hw
      subst hn
      rw [getBigramListPositionForWordWithTryingLowerCaseSearch_guarded_value _ _ _ _ _ _ hlen
        hmark] at hrun
      rw [getTerminalPtNodePosOfWord_guarded _ _ _ _ _ _ _ hlen hmark]
      simp only [Option.some_bind, and_true, Option.map_some', Option.some.injEq] at hrun ⊢
      subst hrun
      have key : ∃ t, t ≠ d.NOT_A_DICT_POS
          ∧ (t = policy.getTerminalPtNodePositionOfWord
                (queriedWord d charUtils word n isBeginningOfSentence).1
                (queriedWord d charUtils word n isBeginningOfSentence).2 false
            ∨ t = policy.getTerminalPtNodePositionOfWord
                (queriedWord d charUtils word n isBeginningOfSentence).1
                (queriedWord d charUtils word n isBeginningOfSentence).2 true)
          ∧ (if (queriedWord d charUtils word n isBeginningOfSentence).2 ≤ 0 then
                d.NOT_A_DICT_POS
              else if d.NOT_A_DICT_POS = policy.getTerminalPtNodePositionOfWord
                  (queriedWord d charUtils word n isBeginningOfSentence).1
                  (queriedWord d charUtils word n isBeginningOfSentence).2 false
                ∨ d.NOT_A_DICT_POS = policy.getBigramsPositionOfPtNode
                  (policy.getTerminalPtNodePositionOfWord
                    (queriedWord d charUtils word n isBeginningOfSentence).1
                    (queriedWord d charUtils word n isBeginningOfSentence).2 false) then
                (if d.NOT_A_DICT_POS = policy.getTerminalPtNodePositionOfWord
                    (queriedWord d charUtils word n isBeginningOfSentence).1
                    (queriedWord d charUtils word n isBeginningOfSentence).2 true then
                  d.NOT_A_DICT_POS
                else
                  policy.getBigramsPositionOfPtNode
                    (policy.getTerminalPtNodePositionOfWord
                      (queriedWord d charUtils word n isBeginningOfSentence).1
                      (queriedWord d charUtils word n isBeginningOfSentence).2 true))
              else
                policy.getBigramsPositionOfPtNode
                  (policy.getTerminalPtNodePositionOfWord
                    (queriedWord d charUtils word n isBeginningOfSentence).1
                    (queriedWord d charUtils word n isBeginningOfSentence).2 false))
            = policy.getBigramsPositionOfPtNode t
          ∧ (if policy.getTerminalPtNodePositionOfWord
                (queriedWord d charUtils word n isBeginningOfSentence).1
                (queriedWord d charUtils word n isBeginningOfSentence).2 false
                = d.NOT_A_DICT_POS then
              policy.getTerminalPtNodePositionOfWord
                (queriedWord d charUtils word n isBeginningOfSentence).1
                (queriedWord d charUtils word n isBeginningOfSentence).2 true
            else
              policy.getTerminalPtNodePositionOfWord
                (queriedWord d charUtils word n isBeginningOfSentence).1
                (queriedWord d charUtils word n isBeginningOfSentence).2 false)
            ≠ d.NOT_A_DICT_POS := by
        simp only at hanchor
        generalize policy.getTerminalPtNodePositionOfWord
          (queriedWord d charUtils word n isBeginningOfSentence).1
          (queriedWord d charUtils word n isBeginningOfSentence).2 false = tf at hanchor ⊢
        generalize policy.getTerminalPtNodePositionOfWord
          (queriedWord d charUtils word n isBeginningOfSentence).1
          (queriedWord d charUtils word n isBeginningOfSentence).2 true = tt at hanchor ⊢
        by_cases hcount : (queriedWord d charUtils word n isBeginningOfSentence).2 ≤ 0
        · rw [if_pos hcount] at hanchor
          exact absurd rfl hanchor
        · rw [if_neg hcount] at hanchor ⊢
          by_cases hmiss : d.NOT_A_DICT_POS = tf
              ∨ d.NOT_A_DICT_POS = policy.getBigramsPositionOfPtNode tf
          · rw [if_pos hmiss] at hanchor ⊢
            by_cases ht : d.NOT_A_DICT_POS = tt
            · rw [if_pos ht] at hanchor
              exact absurd rfl hanchor
            · rw [if_neg ht]
              refine ⟨tt, Ne.symm ht, Or.inr rfl, rfl, ?_⟩
              by_cases hf : tf = d.NOT_A_DICT_POS
              · rw [if_pos hf]
                exact Ne.symm ht
              · rw [if_neg hf]
                exact hf
          · rw [if_neg hmiss]
            have hf : tf ≠ d.NOT_A_DICT_POS := fun h => hmiss (Or.inl h.symm)
            refine ⟨tf, hf, Or.inl rfl, rfl, ?_⟩
            rw [if_neg hf]
            exact hf
      obtain ⟨t, ht, htwhich, hpos, hslot⟩ := key
      exact ⟨_, _, rfl, by simp [Run.pure], hslot, word, t, rfl, ht, htwhich, hpos⟩

/-- C18, on the stub dictionary: for the previous word "Bob" the iterator is bound to 33, the
bigram list of "bob" (the lowercase-forced terminal node 11), and slot 1 with the lowercase
retry is 9. -/
theorem getBigramsIteratorForPrediction_anchor_resolvable_witness :
    ((PrevWordsInfo.ofPrevWord sampleDefines (some (wordView wordBob)) 3
          false).getBigramsIteratorForPrediction sampleCharUtils (some sampleDictionary)).value
        = some ⟨⟨1⟩, 33⟩
      ∧ ∃ out slot, ((PrevWordsInfo.ofPrevWord sampleDefines (some (wordView wordBob)) 3
          false).getPrevWordsTerminalPtNodePos sampleCharUtils (some sampleDictionary)
          true).value = some out
        ∧ out[0]? = some slot ∧ slot ≠ sampleDefines.NOT_A_DICT_POS :=
  ⟨by decide,
    (getBigramsIteratorForPrediction_anchor_resolvable sampleDefines sampleCharUtils
      sampleDictionary (PrevWordsInfo.ofPrevWord sampleDefines (some (wordView wordBob)) 3 false)
      ⟨⟨1⟩, 33⟩ (PrevWordsInfo.Constructed.ofPrevWord _ _ _) (by decide) (by decide)).imp
      fun _ h => h.imp fun _ h' => ⟨h'.1, h'.2.1, h'.2.2.1⟩⟩

end latinime
